import Mathlib

/- Verification of the CursorFlow Memory Bank core: a shallow embedding of
   MemoryBankManager (the memory-bank manager module), of
   MemoryBankDatabaseAdapter (src/memory-bank/database-adapter.js) and of
   MemoryBankNotificationManager (src/memory-bank/notification-manager.js).
   File-system and database effects are made explicit by threading a state
   value; JavaScript exceptions become `Except String`; `Date.now()` becomes a
   strictly increasing `clock : Nat` field. -/

namespace MemoryBank

/-- Result of a JavaScript property lookup `obj[name]` on a plain object
literal: either an own string-valued property, or a function inherited from
`Object.prototype` (every object literal inherits those, so for example
`({}).constructor` is defined and truthy). -/
inductive JsProp where
  | ownStr (s : String)
  | protoFn
deriving DecidableEq, Repr

/-- Own enumerable properties of the manager's `this.components` object
literal: component id mapped to its file name (manager constructor). -/
def componentsOwn : List (String × String) :=
  [("activeContext", "activeContext.md"),
   ("productContext", "productContext.md"),
   ("decisionLog", "decisionLog.md"),
   ("progress", "progress.md"),
   ("systemPatterns", "systemPatterns.md")]

/-- Property names every plain object literal inherits from Object.prototype.
Looking one of them up on `this.components` yields a function (or, for
__proto__, an object), all of which are truthy, so the manager's guard
`if (!this.components[componentName])` does not fire for these names. -/
def objectProtoProps : List String :=
  ["constructor", "hasOwnProperty", "isPrototypeOf", "propertyIsEnumerable",
   "toLocaleString", "toString", "valueOf",
   "__defineGetter__", "__defineSetter__", "__lookupGetter__", "__lookupSetter__",
   "__proto__"]

/-- JavaScript lookup `this.components[name]`: own properties first, then the
prototype chain. -/
def componentsGet (name : String) : Option JsProp :=
  match componentsOwn.lookup name with
  | some f => some (JsProp.ownStr f)
  | none => if objectProtoProps.contains name then some JsProp.protoFn else none

/-- Notification events the manager publishes via the notification manager's
notify* methods. The preview mirrors
`content.substring(0, 100) + (content.length > 100 ? '...' : '')`. -/
inductive Event where
  | componentCreated (name preview : String)
  | componentUpdated (name preview : String)
  | historyAdded (name versionId : String)
  | memoryBankInit
  | cacheCleared
deriving DecidableEq, Repr

/-- Payload preview sent with component-created/updated events. -/
def contentPreview (s : String) : String :=
  if s.length > 100 then s.take 100 ++ "..." else s

/-- The manager's `this.cache`: enabled flag, the data object, and the
hit/miss counters of `this.cache.stats` (lastCleared is only touched by
clearCache, which no claim exercises, and is left out). -/
structure CacheState where
  enabled : Bool
  data : List (String × String)
  hits : Nat
  misses : Nat
deriving DecidableEq, Repr

/-- JavaScript object property assignment `obj[k] = v` on an association
list: replace the existing entry in place, or append a new key. -/
def setAssoc {α : Type} : List (String × α) → String → α → List (String × α)
  | [], k, v => [(k, v)]
  | (k', v') :: rest, k, v =>
    if k' = k then (k, v) :: rest else (k', v') :: setAssoc rest k v

/-- Manager options used by the modelled operations. -/
structure Config where
  maxHistoryVersions : Nat
  enableRealTimeUpdates : Bool
deriving DecidableEq, Repr

/-- File-backend state of the manager. Component files live in `files`, keyed
by file name under basePath; the per-component history directories live in
`histDirs`, keyed by component name, each holding (timestamp, content)
version files. Timestamps are naturals standing for the sanitized ISO-8601
file names: the code sorts those names lexicographically, which coincides
with numeric order on creation times because ISO-8601 renderings are zero
padded. `badFiles` and `badHistory` inject I/O faults: operations on a file
named in `badFiles`, or on the history of a component named in `badHistory`,
fail the way fs calls reject. `events` records the notifications published so
far, `clock` the current time, strictly increasing across Date.now calls. -/
structure FileMgrState where
  files : List (String × String)
  histDirs : List (String × List (Nat × String))
  badFiles : List String
  badHistory : List String
  cache : CacheState
  events : List Event
  clock : Nat
deriving DecidableEq, Repr

/-- fs.existsSync on a component path. -/
def fsExists (s : FileMgrState) (p : String) : Bool :=
  (s.files.lookup p).isSome

/-- fs.readFile: rejects for a fault-injected or missing file. -/
def fsRead (s : FileMgrState) (p : String) : Except String String :=
  if s.badFiles.contains p then Except.error ("EIO: read " ++ p)
  else
    match s.files.lookup p with
    | some c => Except.ok c
    | none => Except.error ("ENOENT: " ++ p)

/-- fs.writeFile: rejects for a fault-injected path. -/
def fsWrite (s : FileMgrState) (p c : String) : Except String FileMgrState :=
  if s.badFiles.contains p then Except.error ("EIO: write " ++ p)
  else Except.ok { s with files := setAssoc s.files p c }

/-- Truthiness of `this.cache.data[name]`: a cached string is truthy iff it is
nonempty; a name that is no own key of the data object falls through to
Object.prototype, whose inherited members are truthy. -/
def cacheTruthy (data : List (String × String)) (name : String) : Bool :=
  match data.lookup name with
  | some v => v != ""
  | none => objectProtoProps.contains name

/-- Value getComponent can produce: the component's content string, or the
non-string function value obtained when an Object.prototype member leaks
through the `this.cache.data[componentName]` lookup. -/
inductive JsValue where
  | str (s : String)
  | fn
deriving DecidableEq, Repr

/-- Insert into a list already sorted descending by `key`. -/
def insDescBy {α : Type} (key : α → Nat) (e : α) : List α → List α
  | [] => [e]
  | f :: rest => if key f ≤ key e then e :: f :: rest else f :: insDescBy key e rest

/-- Insertion sort, descending by `key`: models `files.sort().reverse()` on
history file names (newest first) and SQL `ORDER BY created_at DESC`. -/
def sortDescBy {α : Type} (key : α → Nat) : List α → List α
  | [] => []
  | e :: rest => insDescBy key e (sortDescBy key rest)

/-- MemoryBankManager._pruneComponentHistory, file branch: list the history
directory, sort newest first, and remove every file sliced off past
`maxHistoryVersions`. -/
def pruneKeepNewest (maxN : Nat) (l : List (Nat × String)) : List (Nat × String) :=
  l.filter (fun e => decide (e ∉ (sortDescBy (fun x => x.1) l).drop maxN))

/-- MemoryBankManager._saveToHistory, file branch: write the supplied content
as a new timestamped history file, prune, and publish a history-added
notification. Every failure inside is caught: the method then just logs and
returns false, so the error never escapes. -/
def fileSaveToHistory (cfg : Config) (s : FileMgrState) (name content : String) :
    FileMgrState × Bool :=
  if s.badHistory.contains name then (s, false)
  else
    let ts := s.clock
    let dir := (s.histDirs.lookup name).getD []
    let dir' := pruneKeepNewest cfg.maxHistoryVersions ((ts, content) :: dir)
    let s1 : FileMgrState :=
      { s with histDirs := setAssoc s.histDirs name dir', clock := s.clock + 1 }
    if cfg.enableRealTimeUpdates then
      ({ s1 with events := s1.events ++ [Event.historyAdded name (toString ts)] }, true)
    else (s1, true)

/-- Default contents (_getDefaultActiveContext .. _getDefaultSystemPatterns).
Every one of the five component ids has such a method, so the
`typeof this[defaultMethod] === 'function'` check always passes for them; no
other name is ever asked for a default in file mode (the guard throws first). -/
def defaultContent : String → String
  | "activeContext" =>
    "# Active Context\n\n## Current Focus\n*What the team is currently working on*\n\n## Recent Changes\n*Important changes made since the last update*\n\n## Open Questions\n*Questions that need resolution*\n\n## Next Steps\n*Immediate next actions*\n"
  | "productContext" =>
    "# Product Context\n\n## Project Overview\n*High-level description of the project*\n\n## Goals and Objectives\n*What the project aims to achieve*\n\n## Key Features\n*Main functionality of the system*\n\n## Architecture\n*Overall architecture of the system*\n\n## Constraints\n*Limitations and constraints*\n"
  | "decisionLog" =>
    "# Decision Log\n\n## Decisions\n*Record of important decisions made during the project*\n\n### YYYY-MM-DD: Decision Title\n**Context:** What led to this decision\n**Decision:** What was decided\n**Rationale:** Why this option was chosen\n**Consequences:** What this means for the project\n"
  | "progress" =>
    "# Progress\n\n## Completed\n- [ ] Initialize project\n\n## In Progress\n- [ ] Set up development environment\n\n## Upcoming\n- [ ] Implement core features\n"
  | "systemPatterns" =>
    "# System Patterns\n\n## Coding Patterns\n*Standardized approaches to code implementation*\n\n## Architectural Patterns\n*Recurring architectural solutions*\n\n## Testing Patterns\n*How testing is approached in this project*\n"
  | _ => ""

/-- MemoryBankManager.getComponent, file backend: unknown-component guard,
cache short circuit (a truthy cached value counts, so an empty cached string
falls through to the backend), then read the file, creating it with default
content when absent. Note the stats quirk of the source: on a backend read
the miss counter only increments when the cache is disabled. -/
def fileGetComponent (s : FileMgrState) (name : String) :
    FileMgrState × Except String JsValue :=
  match componentsGet name with
  | none => (s, Except.error ("Unknown component: " ++ name))
  | some JsProp.protoFn =>
    if s.cache.enabled && cacheTruthy s.cache.data name then
      ({ s with cache := { s.cache with hits := s.cache.hits + 1 } },
       Except.ok (match s.cache.data.lookup name with
         | some v => JsValue.str v
         | none => JsValue.fn))
    else
      (s, Except.error ("TypeError: path must be a string, got a function for " ++ name))
  | some (JsProp.ownStr fname) =>
    if s.cache.enabled && cacheTruthy s.cache.data name then
      ({ s with cache := { s.cache with hits := s.cache.hits + 1 } },
       Except.ok (match s.cache.data.lookup name with
         | some v => JsValue.str v
         | none => JsValue.fn))
    else if fsExists s fname then
      match fsRead s fname with
      | Except.error e => (s, Except.error e)
      | Except.ok content =>
        let s1 :=
          if s.cache.enabled then
            { s with cache := { s.cache with data := setAssoc s.cache.data name content } }
          else
            { s with cache := { s.cache with misses := s.cache.misses + 1 } }
        (s1, Except.ok (JsValue.str content))
    else
      match fsWrite s fname (defaultContent name) with
      | Except.error e => (s, Except.error e)
      | Except.ok s1 =>
        let s2 :=
          if s1.cache.enabled then
            { s1 with cache := { s1.cache with
                data := setAssoc s1.cache.data name (defaultContent name) } }
          else s1
        (s2, Except.ok (JsValue.str (defaultContent name)))

/-- Shared tail of MemoryBankManager.updateComponent, file branch: write the
new content, update the cache, publish component-created (first write) or
component-updated. -/
def fileUpdateFinish (cfg : Config) (s : FileMgrState) (name fname content : String)
    (isNew : Bool) : FileMgrState × Except String Bool :=
  match fsWrite s fname content with
  | Except.error e => (s, Except.error e)
  | Except.ok s1 =>
    let s2 :=
      if s1.cache.enabled then
        { s1 with cache := { s1.cache with data := setAssoc s1.cache.data name content } }
      else s1
    let s3 :=
      if cfg.enableRealTimeUpdates then
        { s2 with events := s2.events ++
            [if isNew then Event.componentCreated name (contentPreview content)
             else Event.componentUpdated name (contentPreview content)] }
      else s2
    (s3, Except.ok true)

/-- MemoryBankManager.updateComponent, file backend: guard, then save the old
content to history only when it differs from the new content, then overwrite,
update the cache and notify. A name that is no own key but an
Object.prototype member passes the guard and fails later inside path.join
with a TypeError, not with the Unknown component error. -/
def fileUpdateComponent (cfg : Config) (s : FileMgrState) (name content : String) :
    FileMgrState × Except String Bool :=
  match componentsGet name with
  | none => (s, Except.error ("Unknown component: " ++ name))
  | some JsProp.protoFn =>
    (s, Except.error ("TypeError: path must be a string, got a function for " ++ name))
  | some (JsProp.ownStr fname) =>
    if fsExists s fname then
      match fsRead s fname with
      | Except.error e => (s, Except.error e)
      | Except.ok cur =>
        let s1 := if cur ≠ content then (fileSaveToHistory cfg s name cur).1 else s
        fileUpdateFinish cfg s1 name fname content false
    else
      fileUpdateFinish cfg s name fname content true

/-- Cache update in appendToComponent:
`this.cache.data[name] = (this.cache.data[name] || '') + content` — note it
starts from the cached value, not from the stored content. -/
def fileAppendCache (s : FileMgrState) (name content : String) : FileMgrState :=
  if s.cache.enabled then
    { s with cache := { s.cache with
        data := setAssoc s.cache.data name
          (((s.cache.data.lookup name).getD "") ++ content) } }
  else s

/-- MemoryBankManager.appendToComponent, file backend: when the file exists
its current content is saved to history unconditionally (no old-equals-new
check), then the content is appended (creating an empty file first when
absent); the cache is updated from the cached value; no component-created or
component-updated notification is published. -/
def fileAppendToComponent (cfg : Config) (s : FileMgrState) (name content : String) :
    FileMgrState × Except String Bool :=
  match componentsGet name with
  | none => (s, Except.error ("Unknown component: " ++ name))
  | some JsProp.protoFn =>
    (s, Except.error ("TypeError: path must be a string, got a function for " ++ name))
  | some (JsProp.ownStr fname) =>
    if fsExists s fname then
      match fsRead s fname with
      | Except.error e => (s, Except.error e)
      | Except.ok cur =>
        let s1 := (fileSaveToHistory cfg s name cur).1
        match fsWrite s1 fname (cur ++ content) with
        | Except.error e => (s1, Except.error e)
        | Except.ok s2 => (fileAppendCache s2 name content, Except.ok true)
    else
      match fsWrite s fname "" with
      | Except.error e => (s, Except.error e)
      | Except.ok s1 =>
        match fsWrite s1 fname content with
        | Except.error e => (s1, Except.error e)
        | Except.ok s2 => (fileAppendCache s2 name content, Except.ok true)

/-- MemoryBankManager.getComponentHistory, file backend. `limit = none` is
the default Infinity (no truncation). With contentOnly the entries are
projected to bare content strings (left summand); otherwise full
(timestamp, content) entries come back (right summand). -/
def fileGetComponentHistory (s : FileMgrState) (name : String) (limit : Option Nat)
    (contentOnly : Bool) : Except String (List String ⊕ List (Nat × String)) :=
  match componentsGet name with
  | none => Except.error ("Unknown component: " ++ name)
  | some _ =>
    match s.histDirs.lookup name with
    | none => Except.ok (if contentOnly then Sum.inl [] else Sum.inr [])
    | some entries =>
      if s.badHistory.contains name then Except.error ("EIO: history of " ++ name)
      else
        let sorted := sortDescBy (fun e => e.1) entries
        let limited := match limit with
          | none => sorted
          | some k => sorted.take k
        Except.ok (if contentOnly then Sum.inl (limited.map (fun e => e.2))
                   else Sum.inr limited)

/-- MemoryBankManager.getAllComponents, file backend: every known component
through getComponent; a per-component failure is caught, logged with
console.warn and replaced by the empty string — the error is not surfaced. -/
def fileGetAllComponents (s : FileMgrState) : FileMgrState × List (String × String) :=
  componentsOwn.foldl
    (fun acc kv =>
      match fileGetComponent acc.1 kv.1 with
      | (s1, Except.ok (JsValue.str v)) => (s1, acc.2 ++ [(kv.1, v)])
      | (s1, Except.ok JsValue.fn) => (s1, acc.2 ++ [(kv.1, "")])
      | (s1, Except.error _) => (s1, acc.2 ++ [(kv.1, "")]))
    (s, [])

/-- Required components checked by isInitialized. -/
def requiredComponents : List String :=
  ["activeContext", "productContext", "decisionLog", "progress"]

/-- MemoryBankManager.isInitialized, file backend: true iff each required
component's file exists (fs.existsSync does not reject, so the surrounding
catch returning false is unreachable in this branch). -/
def fileIsInitialized (s : FileMgrState) : Bool :=
  requiredComponents.all (fun n =>
    match componentsOwn.lookup n with
    | some fname => fsExists s fname
    | none => false)

/-- Row of the `components` table (id TEXT PRIMARY KEY, name, content,
updated_at). -/
structure DbComponentRow where
  id : String
  name : String
  content : String
  updatedAt : Nat
deriving DecidableEq, Repr

/-- Row of the `component_history` table (id INTEGER PRIMARY KEY
AUTOINCREMENT, component_id, content, created_at). -/
structure DbHistRow where
  id : Nat
  componentId : String
  content : String
  createdAt : Nat
deriving DecidableEq, Repr

/-- State of the SQLite database behind MemoryBankDatabaseAdapter.
`nextHistoryId` is the AUTOINCREMENT counter. `failAll` injects a connection
failure: every query rejects. `failHistory` injects a failure of
`component_history` inserts only (the case the adapter's saveComponent
catches). -/
structure DbState where
  components : List DbComponentRow
  history : List DbHistRow
  nextHistoryId : Nat
  failAll : Bool
  failHistory : Bool
deriving DecidableEq, Repr

/-- MemoryBankDatabaseAdapter.getComponent: SELECT by primary key. -/
def dbGetComponent (db : DbState) (cid : String) : Except String (Option DbComponentRow) :=
  if db.failAll then Except.error "SQLITE_ERROR: getComponent"
  else Except.ok (db.components.find? (fun r => r.id = cid))

/-- MemoryBankDatabaseAdapter.saveComponentHistory: INSERT INTO
component_history (component_id, content, created_at). -/
def dbSaveComponentHistory (db : DbState) (cid content : String) (now : Nat) :
    Except String DbState :=
  if db.failAll || db.failHistory then Except.error "SQLITE_ERROR: saveComponentHistory"
  else
    Except.ok { db with
      history := db.history ++ [⟨db.nextHistoryId, cid, content, now⟩],
      nextHistoryId := db.nextHistoryId + 1 }

/-- Upsert of MemoryBankDatabaseAdapter.saveComponent: INSERT .. ON CONFLICT
(id) DO UPDATE SET content, updated_at (the name column is not updated on
conflict). -/
def dbUpsertComponent (db : DbState) (cid cname content : String) (now : Nat) : DbState :=
  if (db.components.find? (fun r => r.id = cid)).isSome then
    { db with components := db.components.map (fun r =>
        if r.id = cid then { r with content := content, updatedAt := now } else r) }
  else
    { db with components := db.components ++ [⟨cid, cname, content, now⟩] }

/-- MemoryBankDatabaseAdapter.saveComponent: upsert the current row, then
insert the NEW content into component_history; a history failure is caught,
logged, and the save still resolves true. No pruning happens here. -/
def dbSaveComponent (db : DbState) (cid cname content : String) (now : Nat) :
    Except String DbState :=
  if db.failAll then Except.error "SQLITE_ERROR: saveComponent"
  else
    let db1 := dbUpsertComponent db cid cname content now
    match dbSaveComponentHistory db1 cid content now with
    | Except.ok db2 => Except.ok db2
    | Except.error _ => Except.ok db1

/-- Limit argument reaching the adapter's getComponentHistory: `unset` when
the caller passes no options (the adapter defaults to 10), `infinite` when
the manager forwards its own default `Infinity` (SQLite casts the bound
+Inf to the largest integer, so no truncation), or a finite limit. -/
inductive HistLimit where
  | unset
  | infinite
  | fin (n : Nat)
deriving DecidableEq, Repr

/-- MemoryBankDatabaseAdapter.getComponentHistory: SELECT .. WHERE
component_id = ? ORDER BY created_at DESC LIMIT ?. -/
def dbGetComponentHistory (db : DbState) (cid : String) (limit : HistLimit) :
    Except String (List DbHistRow) :=
  if db.failAll then Except.error "SQLITE_ERROR: getComponentHistory"
  else
    let sorted := sortDescBy (fun r => r.createdAt)
      (db.history.filter (fun r => decide (r.componentId = cid)))
    Except.ok (match limit with
      | HistLimit.unset => sorted.take 10
      | HistLimit.infinite => sorted
      | HistLimit.fin n => sorted.take n)

/-- MemoryBankDatabaseAdapter.getAllComponents: SELECT * FROM components. -/
def dbGetAllComponents (db : DbState) : Except String (List DbComponentRow) :=
  if db.failAll then Except.error "SQLITE_ERROR: getAllComponents"
  else Except.ok db.components

/-- Manager-level state in database mode. -/
structure DbMgrState where
  db : DbState
  cache : CacheState
  events : List Event
  clock : Nat
deriving DecidableEq, Repr

/-- Abstract injective rendering of `new Date(ms).toISOString()`, used only
for comparison against a version id string. -/
def isoOf (n : Nat) : String := "ISO:" ++ toString n

/-- Names with a _getDefault method on the manager: exactly the five known
component ids (checked via `typeof this[defaultMethod] === 'function'`). -/
def hasDefaultMethod (name : String) : Bool :=
  (componentsOwn.lookup name).isSome

/-- MemoryBankManager.getComponent, database branch: same guard and cache
short circuit as the file branch, then a database read, creating the
component with default content (or with the empty string when no default
method exists) when the row is absent. The miss counter is never touched in
this branch. -/
def dbmGetComponent (s : DbMgrState) (name : String) :
    DbMgrState × Except String JsValue :=
  match componentsGet name with
  | none => (s, Except.error ("Unknown component: " ++ name))
  | some _ =>
    if s.cache.enabled && cacheTruthy s.cache.data name then
      ({ s with cache := { s.cache with hits := s.cache.hits + 1 } },
       Except.ok (match s.cache.data.lookup name with
         | some v => JsValue.str v
         | none => JsValue.fn))
    else
      match dbGetComponent s.db name with
      | Except.error e => (s, Except.error e)
      | Except.ok (some row) =>
        let s1 :=
          if s.cache.enabled then
            { s with cache := { s.cache with data := setAssoc s.cache.data name row.content } }
          else s
        (s1, Except.ok (JsValue.str row.content))
      | Except.ok none =>
        let d := if hasDefaultMethod name then defaultContent name else ""
        match dbSaveComponent s.db name name d s.clock with
        | Except.error e => (s, Except.error e)
        | Except.ok db1 =>
          let s1 : DbMgrState := { s with db := db1, clock := s.clock + 1 }
          let s2 :=
            if s1.cache.enabled then
              { s1 with cache := { s1.cache with data := setAssoc s1.cache.data name d } }
            else s1
          (s2, Except.ok (JsValue.str d))

/-- MemoryBankManager.updateComponent, database branch: guard, read the
existing row only to decide created-versus-updated, then saveComponent (which
itself records the NEW content as a history row and never prunes), update the
cache and notify. Nothing here compares old and new content, and
_saveToHistory (the only caller of pruneComponentHistory) is not invoked. -/
def dbmUpdateComponent (cfg : Config) (s : DbMgrState) (name content : String) :
    DbMgrState × Except String Bool :=
  match componentsGet name with
  | none => (s, Except.error ("Unknown component: " ++ name))
  | some _ =>
    match dbGetComponent s.db name with
    | Except.error e => (s, Except.error e)
    | Except.ok existing =>
      let isNew := existing.isNone
      match dbSaveComponent s.db name name content s.clock with
      | Except.error e => (s, Except.error e)
      | Except.ok db1 =>
        let s1 : DbMgrState := { s with db := db1, clock := s.clock + 1 }
        let s2 :=
          if s1.cache.enabled then
            { s1 with cache := { s1.cache with data := setAssoc s1.cache.data name content } }
          else s1
        let s3 :=
          if cfg.enableRealTimeUpdates then
            { s2 with events := s2.events ++
                [if isNew then Event.componentCreated name (contentPreview content)
                 else Event.componentUpdated name (contentPreview content)] }
          else s2
        (s3, Except.ok true)

/-- MemoryBankManager.appendToComponent, database branch: read the row,
save the concatenation (absent row: just the appended content), update the
cache from the read value; no notification is published. -/
def dbmAppendToComponent (s : DbMgrState) (name content : String) :
    DbMgrState × Except String Bool :=
  match componentsGet name with
  | none => (s, Except.error ("Unknown component: " ++ name))
  | some _ =>
    match dbGetComponent s.db name with
    | Except.error e => (s, Except.error e)
    | Except.ok existing =>
      let newContent := match existing with
        | some row => row.content ++ content
        | none => content
      match dbSaveComponent s.db name name newContent s.clock with
      | Except.error e => (s, Except.error e)
      | Except.ok db1 =>
        let s1 : DbMgrState := { s with db := db1, clock := s.clock + 1 }
        let cached := ((existing.map (fun r => r.content)).getD "") ++ content
        let s2 :=
          if s1.cache.enabled then
            { s1 with cache := { s1.cache with data := setAssoc s1.cache.data name cached } }
          else s1
        (s2, Except.ok true)

/-- MemoryBankManager.getComponentHistory, database branch: forwards the
limit (its own default being Infinity) to the adapter; contentOnly projects
to bare content strings. -/
def dbmGetComponentHistory (s : DbMgrState) (name : String) (limit : Option Nat)
    (contentOnly : Bool) : Except String (List String ⊕ List DbHistRow) :=
  match componentsGet name with
  | none => Except.error ("Unknown component: " ++ name)
  | some _ =>
    match dbGetComponentHistory s.db name
        (match limit with | none => HistLimit.infinite | some k => HistLimit.fin k) with
    | Except.error e => Except.error e
    | Except.ok history =>
      Except.ok (if contentOnly then Sum.inl (history.map (fun r => r.content))
                 else Sum.inr history)

/-- MemoryBankManager.getComponentVersion, database branch: fetches history
with NO options — so the adapter's default limit of 10 applies — and searches
that list for a row whose id (as a string) or timestamp ISO rendering equals
the requested version id. -/
def dbmGetComponentVersion (s : DbMgrState) (name versionId : String) :
    Except String String :=
  match componentsGet name with
  | none => Except.error ("Unknown component: " ++ name)
  | some _ =>
    match dbGetComponentHistory s.db name HistLimit.unset with
    | Except.error e => Except.error e
    | Except.ok history =>
      match history.find? (fun v =>
          decide (toString v.id = versionId) || decide (isoOf v.createdAt = versionId)) with
      | some v => Except.ok v.content
      | none =>
        Except.error ("Version " ++ versionId ++ " not found for component " ++ name)

/-- MemoryBankManager.isInitialized, database branch: checks the four
required components; any database error is caught and turned into false, so
the boolean surfaces no failure. -/
def dbmIsInitialized (s : DbMgrState) : Bool :=
  requiredComponents.all (fun n =>
    match dbGetComponent s.db n with
    | Except.ok (some _) => true
    | _ => false)

/-- MemoryBankManager.getAllComponents, database branch: a database error is
caught and logged, and the (empty) result object is returned as if nothing
happened. -/
def dbmGetAllComponents (s : DbMgrState) : DbMgrState × List (String × String) :=
  match dbGetAllComponents s.db with
  | Except.error _ => (s, [])
  | Except.ok rows =>
    let s1 :=
      if s.cache.enabled then
        { s with cache := { s.cache with
            data := rows.foldl (fun d r => setAssoc d r.id r.content) s.cache.data } }
      else s
    (s1, rows.map (fun r => (r.id, r.content)))

/-- Callback registered with the notification manager; `throws` says whether
invoking it raises an exception. -/
structure Callback where
  id : Nat
  throws : Bool
deriving DecidableEq, Repr

/-- Subscription record kept in `this.subscriptions`. -/
structure NmSubscription where
  connectionId : String
  eventTypes : List String
  callback : Callback
deriving DecidableEq, Repr

/-- One EventEmitter listener as registered by subscribe: it was attached for
one event type and closes over the subscription id and the callback. -/
structure NmListener where
  eventType : String
  subId : String
  callback : Callback
deriving DecidableEq, Repr

/-- State of MemoryBankNotificationManager: the subscription map, the
EventEmitter's listener list in registration order, and a clock modelling
Date.now for subscription ids (assumed strictly increasing). -/
structure NmState where
  subscriptions : List (String × NmSubscription)
  listeners : List NmListener
  clock : Nat
deriving DecidableEq, Repr

/-- Object.values(this.EVENT_TYPES). -/
def eventTypeValues : List String :=
  ["component-updated", "component-created", "component-history-added",
   "memory-bank-initialized", "cache-cleared"]

/-- MemoryBankNotificationManager.subscribe. The JavaScript default
`eventTypes || Object.values(this.EVENT_TYPES)` falls back only for
null/undefined: an empty array is truthy in JavaScript and is kept as is,
registering no listener at all. One listener per listed event type is
appended to the emitter. -/
def nmSubscribe (s : NmState) (connectionId : String)
    (eventTypes : Option (List String)) (cb : Callback) : NmState × String :=
  let subId := connectionId ++ "-" ++ toString s.clock
  let events := match eventTypes with
    | none => eventTypeValues
    | some l => l
  let s1 : NmState :=
    { subscriptions := setAssoc s.subscriptions subId ⟨connectionId, events, cb⟩,
      listeners := s.listeners ++ events.map (fun e => ⟨e, subId, cb⟩),
      clock := s.clock + 1 }
  (s1, subId)

/-- Inner loop of EventEmitter.emit over the listeners attached to the
emitted event type, in registration order: each listener first checks that
its subscription is still present, then invokes the callback; an exception
thrown by a callback propagates out of emit immediately, so listeners after
it never run. Returns the ids of the callbacks invoked, and the id of the
throwing callback if one threw. -/
def nmEmitGo (subs : List (String × NmSubscription)) :
    List NmListener → List Nat × Option Nat
  | [] => ([], none)
  | l :: rest =>
    if (subs.lookup l.subId).isSome then
      if l.callback.throws then ([l.callback.id], some l.callback.id)
      else
        let r := nmEmitGo subs rest
        (l.callback.id :: r.1, r.2)
    else nmEmitGo subs rest

/-- EventEmitter.emit as used by the notify* methods: synchronous, in
registration order, no try/catch around the listeners. -/
def nmEmit (s : NmState) (eventType : String) : List Nat × Option Nat :=
  nmEmitGo s.subscriptions (s.listeners.filter (fun l => decide (l.eventType = eventType)))

/-- MemoryBankNotificationManager.notifyComponentUpdated publishes the
component-updated event. -/
def nmNotifyComponentUpdated (s : NmState) : List Nat × Option Nat :=
  nmEmit s "component-updated"

/-- Cache record as constructed with caching disabled (the default). -/
def cacheOff : CacheState := ⟨false, [], 0, 0⟩

/-- Cache record as constructed with enableCache: true. -/
def cacheOn : CacheState := ⟨true, [], 0, 0⟩

/-- Default manager options: maxHistoryVersions 10, real-time updates on. -/
def cfg10 : Config := ⟨10, true⟩

/-- File-backend state with a single component file present holding
`content`: empty history, no fault injection, empty event log, clock 0. -/
def fileStart (fname content : String) (cache : CacheState) : FileMgrState :=
  { files := [(fname, content)], histDirs := [], badFiles := [], badHistory := [],
    cache := cache, events := [], clock := 0 }

/-- History listing of a component as stored in the file-backend state (an
absent directory reads as the empty listing). -/
def histOf (s : FileMgrState) (name : String) : List (Nat × String) :=
  (s.histDirs.lookup name).getD []

theorem lookup_setAssoc_self {α : Type} (l : List (String × α)) (k : String) (v : α) :
    (setAssoc l k v).lookup k = some v := by
  induction l with
  | nil => simp [setAssoc, List.lookup]
  | cons p rest ih =>
    by_cases h : p.1 = k
    · simp [setAssoc, h, List.lookup]
    · have hb : (k == p.1) = false := beq_eq_false_iff_ne.mpr (Ne.symm h)
      simp [setAssoc, h, List.lookup, hb, ih]

theorem lookup_setAssoc_isSome_mono {α : Type} (l : List (String × α)) (k k' : String)
    (v : α) (h : (l.lookup k').isSome) : ((setAssoc l k v).lookup k').isSome := by
  induction l with
  | nil => simp [List.lookup] at h
  | cons p rest ih =>
    by_cases hk' : k' = p.1
    · by_cases hk : p.1 = k
      · have hb : (k' == k) = true := beq_iff_eq.mpr (by rw [hk'] ; exact hk)
        simp [setAssoc, hk, List.lookup, hb]
      · have hb : (k' == p.1) = true := beq_iff_eq.mpr hk'
        simp [setAssoc, hk, List.lookup, hb]
    · have hb : (k' == p.1) = false := beq_eq_false_iff_ne.mpr hk'
      simp only [List.lookup, hb] at h
      by_cases hk : p.1 = k
      · have hb2 : (k' == k) = false := beq_eq_false_iff_ne.mpr (by rw [← hk] ; exact hk')
        simp [setAssoc, hk, List.lookup, hb2, h]
      · simp [setAssoc, hk, List.lookup, hb, ih h]

theorem insDescBy_eq_cons {α : Type} (key : α → Nat) (e : α) (l : List α)
    (h : ∀ b ∈ l, key b < key e) : insDescBy key e l = e :: l := by
  cases l with
  | nil => rfl
  | cons f t =>
    have hf : key f ≤ key e := le_of_lt (h f (by simp))
    simp [insDescBy, hf]

theorem sortDescBy_eq_self {α : Type} (key : α → Nat) (l : List α)
    (h : List.Pairwise (fun a b => key b < key a) l) : sortDescBy key l = l := by
  induction l with
  | nil => rfl
  | cons e rest ih =>
    rcases List.pairwise_cons.mp h with ⟨he, hrest⟩
    rw [sortDescBy, ih hrest, insDescBy_eq_cons key e rest he]

theorem mem_insDescBy {α : Type} (key : α → Nat) (e a : α) (l : List α) :
    a ∈ insDescBy key e l ↔ a = e ∨ a ∈ l := by
  induction l with
  | nil => simp [insDescBy]
  | cons f t ih =>
    by_cases h : key f ≤ key e
    · simp [insDescBy, h]
    · simp [insDescBy, h, ih]
      tauto

theorem mem_sortDescBy {α : Type} (key : α → Nat) (a : α) (l : List α) :
    a ∈ sortDescBy key l ↔ a ∈ l := by
  induction l with
  | nil => simp [sortDescBy]
  | cons e rest ih =>
    simp [sortDescBy, mem_insDescBy, ih]

theorem filter_not_mem_drop (l : List (Nat × String)) (k : Nat)
    (h : l.Nodup) : l.filter (fun e => decide (e ∉ l.drop k)) = l.take k := by
  generalize hd : l.drop k = d
  generalize ht : l.take k = t
  have hsplit : t ++ d = l := by rw [← hd, ← ht] ; exact List.take_append_drop k l
  subst hsplit
  rcases List.nodup_append.mp h with ⟨-, -, hdisj⟩
  rw [List.filter_append]
  have h1 : t.filter (fun e => decide (e ∉ d)) = t :=
    List.filter_eq_self.mpr (fun a ha => by
      simp only [decide_eq_true_eq]
      exact hdisj ha)
  have h2 : d.filter (fun e => decide (e ∉ d)) = [] :=
    List.filter_eq_nil_iff.mpr (fun a ha => by
      simp only [decide_eq_true_eq, not_not]
      exact ha)
  rw [h1, h2, List.append_nil]

theorem pruneKeepNewest_eq_take (maxN : Nat) (l : List (Nat × String))
    (h : List.Pairwise (fun a b => b.1 < a.1) l) :
    pruneKeepNewest maxN l = l.take maxN := by
  have hs : sortDescBy (fun x => x.1) l = l := sortDescBy_eq_self (fun x => x.1) l h
  have hnd : l.Nodup := h.imp (fun hab heq => by subst heq; exact absurd hab (lt_irrefl _))
  unfold pruneKeepNewest
  rw [hs]
  exact filter_not_mem_drop l maxN hnd

/-- Bound and oldest-first facts about a pruned history listing. -/
theorem take_bound_facts (l : List (Nat × String)) (c : Nat) (cur : String) (maxN : Nat)
    (hdesc : List.Pairwise (fun a b => b.1 < a.1) l)
    (hlt : ∀ e ∈ l, e.1 < c) :
    (((c, cur) :: l).take maxN).length ≤ maxN
    ∧ ∀ e ∈ l, e ∉ ((c, cur) :: l).take maxN →
        ∀ k ∈ ((c, cur) :: l).take maxN, e.1 < k.1 := by
  have hL : List.Pairwise (fun (a b : Nat × String) => b.1 < a.1) ((c, cur) :: l) :=
    List.pairwise_cons.mpr ⟨fun b hb => hlt b hb, hdesc⟩
  constructor
  · exact List.length_take_le maxN _
  · intro e he hnot k hk
    set L := (c, cur) :: l with hLdef
    have hmem : e ∈ L := List.mem_cons_of_mem _ he
    have hsplit : L.take maxN ++ L.drop maxN = L := List.take_append_drop maxN L
    have hdropmem : e ∈ L.drop maxN := by
      rcases (List.mem_append.mp (by rw [hsplit]; exact hmem)) with h1 | h1
      · exact absurd h1 hnot
      · exact h1
    have hpw : List.Pairwise (fun (a b : Nat × String) => b.1 < a.1)
        (L.take maxN ++ L.drop maxN) := by rw [hsplit]; exact hL
    exact (List.pairwise_append.mp hpw).2.2 k hk e hdropmem

theorem histOf_congr_histDirs (s s' : FileMgrState) (name : String)
    (h : s'.histDirs = s.histDirs) : histOf s' name = histOf s name := by
  simp [histOf, h]

theorem fileUpdateFinish_histDirs (cfg : Config) (s : FileMgrState)
    (name fname content : String) (isNew : Bool) :
    (fileUpdateFinish cfg s name fname content isNew).1.histDirs = s.histDirs := by
  by_cases hbad : fname ∈ s.badFiles
  · simp [fileUpdateFinish, fsWrite, hbad]
  · by_cases hc : s.cache.enabled <;> by_cases hrt : cfg.enableRealTimeUpdates <;>
      simp [fileUpdateFinish, fsWrite, hbad, hc, hrt]

theorem fileSaveToHistory_bad (cfg : Config) (s : FileMgrState) (name content : String)
    (hbad : name ∈ s.badHistory) :
    fileSaveToHistory cfg s name content = (s, false) := by
  simp [fileSaveToHistory, hbad]

theorem fileSaveToHistory_histOf (cfg : Config) (s : FileMgrState) (name content : String)
    (hgood : name ∉ s.badHistory)
    (hdesc : List.Pairwise (fun a b => b.1 < a.1) (histOf s name))
    (hlt : ∀ e ∈ histOf s name, e.1 < s.clock) :
    histOf (fileSaveToHistory cfg s name content).1 name
      = ((s.clock, content) :: histOf s name).take cfg.maxHistoryVersions := by
  have hpw : List.Pairwise (fun (a b : Nat × String) => b.1 < a.1)
      ((s.clock, content) :: histOf s name) :=
    List.pairwise_cons.mpr ⟨fun b hb => hlt b hb, hdesc⟩
  have hprune := pruneKeepNewest_eq_take cfg.maxHistoryVersions _ hpw
  by_cases hrt : cfg.enableRealTimeUpdates <;>
    simp [fileSaveToHistory, hgood, hrt, histOf, lookup_setAssoc_self, ← hprune, histOf] <;>
    simp [histOf] at hprune <;> rw [hprune]

theorem histOf_after_update (cfg : Config) (s : FileMgrState) (name fname content : String)
    (hname : componentsOwn.lookup name = some fname)
    (hdesc : List.Pairwise (fun a b => b.1 < a.1) (histOf s name))
    (hlt : ∀ e ∈ histOf s name, e.1 < s.clock) :
    histOf (fileUpdateComponent cfg s name content).1 name = histOf s name
    ∨ ∃ cur, histOf (fileUpdateComponent cfg s name content).1 name
        = ((s.clock, cur) :: histOf s name).take cfg.maxHistoryVersions := by
  have hget : componentsGet name = some (JsProp.ownStr fname) := by
    simp [componentsGet, hname]
  by_cases hex : fsExists s fname = true
  · cases hread : fsRead s fname with
    | error e =>
      left
      simp [fileUpdateComponent, hget, hex, hread]
    | ok cur =>
      by_cases hne : cur = content
      · left
        have hfin := fileUpdateFinish_histDirs cfg s name fname content false
        simp [fileUpdateComponent, hget, hex, hread, hne, histOf, hfin]
      · by_cases hbad : name ∈ s.badHistory
        · left
          have hsave := fileSaveToHistory_bad cfg s name cur hbad
          have hfin := fileUpdateFinish_histDirs cfg s name fname content false
          simp [fileUpdateComponent, hget, hex, hread, hne, hsave, histOf, hfin]
        · right
          refine ⟨cur, ?_⟩
          have hsave := fileSaveToHistory_histOf cfg s name cur hbad hdesc hlt
          have hfin := fileUpdateFinish_histDirs cfg
            (fileSaveToHistory cfg s name cur).1 name fname content false
          calc histOf (fileUpdateComponent cfg s name content).1 name
              = histOf (fileSaveToHistory cfg s name cur).1 name := by
                simp [fileUpdateComponent, hget, hex, hread, hne, histOf, hfin]
            _ = ((s.clock, cur) :: histOf s name).take cfg.maxHistoryVersions := hsave
  · left
    have hfin := fileUpdateFinish_histDirs cfg s name fname content true
    simp [fileUpdateComponent, hget, hex, histOf, hfin]

theorem histOf_after_append (cfg : Config) (s : FileMgrState) (name fname content : String)
    (hname : componentsOwn.lookup name = some fname)
    (hdesc : List.Pairwise (fun a b => b.1 < a.1) (histOf s name))
    (hlt : ∀ e ∈ histOf s name, e.1 < s.clock) :
    histOf (fileAppendToComponent cfg s name content).1 name = histOf s name
    ∨ ∃ cur, histOf (fileAppendToComponent cfg s name content).1 name
        = ((s.clock, cur) :: histOf s name).take cfg.maxHistoryVersions := by
  have hget : componentsGet name = some (JsProp.ownStr fname) := by
    simp [componentsGet, hname]
  by_cases hex : fsExists s fname = true
  · cases hread : fsRead s fname with
    | error e =>
      left
      simp [fileAppendToComponent, hget, hex, hread]
    | ok cur =>
      by_cases hbad : name ∈ s.badHistory
      · left
        have hsave := fileSaveToHistory_bad cfg s name cur hbad
        by_cases hw : fname ∈ s.badFiles <;>
        by_cases hc : s.cache.enabled <;>
          simp [fileAppendToComponent, hget, hex, hread, hsave, fsWrite, hw,
            fileAppendCache, hc, histOf]
      · right
        refine ⟨cur, ?_⟩
        have hsave := fileSaveToHistory_histOf cfg s name cur hbad hdesc hlt
        have hbadpres : (fileSaveToHistory cfg s name cur).1.badFiles = s.badFiles := by
          by_cases hrt : cfg.enableRealTimeUpdates <;>
            simp [fileSaveToHistory, hbad, hrt]
        have hcachepres : (fileSaveToHistory cfg s name cur).1.cache = s.cache := by
          by_cases hrt : cfg.enableRealTimeUpdates <;>
            simp [fileSaveToHistory, hbad, hrt]
        by_cases hw : fname ∈ s.badFiles <;>
        by_cases hc : s.cache.enabled <;>
          simp [fileAppendToComponent, hget, hex, hread, fsWrite, hbadpres, hw,
            fileAppendCache, hcachepres, hc, histOf] <;>
          simp [histOf] at hsave <;> rw [hsave]
  · left
    by_cases hw : fname ∈ s.badFiles <;>
    by_cases hc : s.cache.enabled <;>
      simp [fileAppendToComponent, hget, hex, fsWrite, hw, fileAppendCache, hc, histOf]

theorem dbUpsertComponent_history (db : DbState) (cid cname content : String) (now : Nat) :
    (dbUpsertComponent db cid cname content now).history = db.history := by
  by_cases h : (db.components.find? (fun r => r.id = cid)).isSome <;>
    simp [dbUpsertComponent, h]

theorem dbSaveComponentHistory_ok (db : DbState) (cid content : String) (now : Nat)
    (db' : DbState) (h : dbSaveComponentHistory db cid content now = Except.ok db') :
    db'.history = db.history ++ [⟨db.nextHistoryId, cid, content, now⟩] := by
  by_cases hf : (db.failAll || db.failHistory) = true
  · simp [dbSaveComponentHistory, hf] at h
  · simp [dbSaveComponentHistory, hf] at h
    rw [← h]

theorem dbSaveComponent_history_append (db : DbState) (cid cname content : String)
    (now : Nat) (db' : DbState) (h : dbSaveComponent db cid cname content now = Except.ok db') :
    ∃ t, db'.history = db.history ++ t := by
  by_cases hf : db.failAll = true
  · simp [dbSaveComponent, hf] at h
  · cases hsp : dbSaveComponentHistory (dbUpsertComponent db cid cname content now)
        cid content now with
    | ok db2 =>
      simp [dbSaveComponent, hf, hsp] at h
      subst h
      refine ⟨[⟨(dbUpsertComponent db cid cname content now).nextHistoryId, cid, content, now⟩], ?_⟩
      rw [dbSaveComponentHistory_ok _ _ _ _ _ hsp, dbUpsertComponent_history]
    | error e =>
      simp [dbSaveComponent, hf, hsp] at h
      subst h
      refine ⟨[], ?_⟩
      rw [List.append_nil, dbUpsertComponent_history]

theorem dbmUpdate_history_append (cfg : Config) (ds : DbMgrState) (name content : String) :
    ∃ t, (dbmUpdateComponent cfg ds name content).1.db.history = ds.db.history ++ t := by
  cases hg : componentsGet name with
  | none => exact ⟨[], by simp [dbmUpdateComponent, hg]⟩
  | some jp =>
    cases hr : dbGetComponent ds.db name with
    | error e => exact ⟨[], by simp [dbmUpdateComponent, hg, hr]⟩
    | ok existing =>
      cases hs : dbSaveComponent ds.db name name content ds.clock with
      | error e => exact ⟨[], by simp [dbmUpdateComponent, hg, hr, hs]⟩
      | ok db1 =>
        obtain ⟨t, ht⟩ := dbSaveComponent_history_append ds.db name name content ds.clock db1 hs
        refine ⟨t, ?_⟩
        by_cases hc : ds.cache.enabled <;> by_cases hrt : cfg.enableRealTimeUpdates <;>
          simp [dbmUpdateComponent, hg, hr, hs, hc, hrt, ht]

theorem dbmAppend_history_append (ds : DbMgrState) (name content : String) :
    ∃ t, (dbmAppendToComponent ds name content).1.db.history = ds.db.history ++ t := by
  cases hg : componentsGet name with
  | none => exact ⟨[], by simp [dbmAppendToComponent, hg]⟩
  | some jp =>
    cases hr : dbGetComponent ds.db name with
    | error e => exact ⟨[], by simp [dbmAppendToComponent, hg, hr]⟩
    | ok existing =>
      cases existing with
      | none =>
        cases hs : dbSaveComponent ds.db name name content ds.clock with
        | error e => exact ⟨[], by simp [dbmAppendToComponent, hg, hr, hs]⟩
        | ok db1 =>
          obtain ⟨t, ht⟩ :=
            dbSaveComponent_history_append ds.db name name content ds.clock db1 hs
          refine ⟨t, ?_⟩
          by_cases hc : ds.cache.enabled <;>
            simp [dbmAppendToComponent, hg, hr, hs, hc, ht]
      | some row =>
        cases hs : dbSaveComponent ds.db name name (row.content ++ content) ds.clock with
        | error e => exact ⟨[], by simp [dbmAppendToComponent, hg, hr, hs]⟩
        | ok db1 =>
          obtain ⟨t, ht⟩ :=
            dbSaveComponent_history_append ds.db name name _ ds.clock db1 hs
          refine ⟨t, ?_⟩
          by_cases hc : ds.cache.enabled <;>
            simp [dbmAppendToComponent, hg, hr, hs, hc, ht]

/-- C1: for every component id and every configuration of
maxHistoryVersions, after any write operation (updateComponent or
appendToComponent) the number of stored history versions is at most
maxHistoryVersions and the removed versions are always the oldest ones —
amended: this holds in file-backend mode (assuming the history listing was
well formed and within the bound before the write), but NOT identically in
database-backend mode: there the write path only ever appends history rows
and never prunes, so the bound can be exceeded (see the counterexample). -/
theorem C1_retention_amended (cfg : Config) (s : FileMgrState) (ds : DbMgrState)
    (name fname content : String)
    (hname : componentsOwn.lookup name = some fname)
    (hdesc : List.Pairwise (fun a b => b.1 < a.1) (histOf s name))
    (hlt : ∀ e ∈ histOf s name, e.1 < s.clock)
    (hlen : (histOf s name).length ≤ cfg.maxHistoryVersions) :
    ((histOf (fileUpdateComponent cfg s name content).1 name).length ≤ cfg.maxHistoryVersions
      ∧ ∀ e ∈ histOf s name, e ∉ histOf (fileUpdateComponent cfg s name content).1 name →
          ∀ k ∈ histOf (fileUpdateComponent cfg s name content).1 name, e.1 < k.1)
    ∧ ((histOf (fileAppendToComponent cfg s name content).1 name).length ≤ cfg.maxHistoryVersions
      ∧ ∀ e ∈ histOf s name, e ∉ histOf (fileAppendToComponent cfg s name content).1 name →
          ∀ k ∈ histOf (fileAppendToComponent cfg s name content).1 name, e.1 < k.1)
    ∧ (∃ t, (dbmUpdateComponent cfg ds name content).1.db.history = ds.db.history ++ t)
    ∧ (∃ t, (dbmAppendToComponent ds name content).1.db.history = ds.db.history ++ t) := by
  have main : ∀ h' : List (Nat × String),
      (h' = histOf s name
        ∨ ∃ cur, h' = ((s.clock, cur) :: histOf s name).take cfg.maxHistoryVersions) →
      h'.length ≤ cfg.maxHistoryVersions
        ∧ ∀ e ∈ histOf s name, e ∉ h' → ∀ k ∈ h', e.1 < k.1 := by
    rintro h' (rfl | ⟨cur, rfl⟩)
    · exact ⟨hlen, fun e he hnot => absurd he hnot⟩
    · exact take_bound_facts (histOf s name) s.clock cur cfg.maxHistoryVersions hdesc hlt
  exact ⟨main _ (histOf_after_update cfg s name fname content hname hdesc hlt),
         main _ (histOf_after_append cfg s name fname content hname hdesc hlt),
         dbmUpdate_history_append cfg ds name content,
         dbmAppend_history_append ds name content⟩

/-- C1 counterexample: in database-backend mode with maxHistoryVersions = 2,
three distinct updates of an initially absent component leave 3 history rows,
exceeding the configured bound — the database write path never prunes. -/
theorem C1_db_prune_counterexample :
    (dbmUpdateComponent ⟨2, true⟩
      (dbmUpdateComponent ⟨2, true⟩
        (dbmUpdateComponent ⟨2, true⟩ ⟨⟨[], [], 1, false, false⟩, cacheOff, [], 0⟩
          "activeContext" "a").1
        "activeContext" "b").1
      "activeContext" "c").1.db.history.length = 3 := by rfl

/-- C1 witness: the amended retention theorem applied at maxHistoryVersions
2 on a concrete file-backend state with the component present and empty
history, and a concrete empty database state. -/
theorem C1_retention_amended_witness :
    ((histOf (fileUpdateComponent ⟨2, true⟩ (fileStart "activeContext.md" "p" cacheOff)
        "activeContext" "v").1 "activeContext").length ≤ 2
      ∧ ∀ e ∈ histOf (fileStart "activeContext.md" "p" cacheOff) "activeContext",
          e ∉ histOf (fileUpdateComponent ⟨2, true⟩
            (fileStart "activeContext.md" "p" cacheOff) "activeContext" "v").1 "activeContext" →
          ∀ k ∈ histOf (fileUpdateComponent ⟨2, true⟩
            (fileStart "activeContext.md" "p" cacheOff) "activeContext" "v").1 "activeContext",
            e.1 < k.1)
    ∧ ((histOf (fileAppendToComponent ⟨2, true⟩ (fileStart "activeContext.md" "p" cacheOff)
        "activeContext" "v").1 "activeContext").length ≤ 2
      ∧ ∀ e ∈ histOf (fileStart "activeContext.md" "p" cacheOff) "activeContext",
          e ∉ histOf (fileAppendToComponent ⟨2, true⟩
            (fileStart "activeContext.md" "p" cacheOff) "activeContext" "v").1 "activeContext" →
          ∀ k ∈ histOf (fileAppendToComponent ⟨2, true⟩
            (fileStart "activeContext.md" "p" cacheOff) "activeContext" "v").1 "activeContext",
            e.1 < k.1)
    ∧ (∃ t, (dbmUpdateComponent ⟨2, true⟩ ⟨⟨[], [], 1, false, false⟩, cacheOff, [], 0⟩
        "activeContext" "v").1.db.history
        = (⟨⟨[], [], 1, false, false⟩, cacheOff, [], 0⟩ : DbMgrState).db.history ++ t)
    ∧ (∃ t, (dbmAppendToComponent ⟨⟨[], [], 1, false, false⟩, cacheOff, [], 0⟩
        "activeContext" "v").1.db.history
        = (⟨⟨[], [], 1, false, false⟩, cacheOff, [], 0⟩ : DbMgrState).db.history ++ t) :=
  C1_retention_amended ⟨2, true⟩ (fileStart "activeContext.md" "p" cacheOff)
    ⟨⟨[], [], 1, false, false⟩, cacheOff, [], 0⟩ "activeContext" "activeContext.md" "v"
    (by decide)
    (by simp [histOf, fileStart])
    (by simp [histOf, fileStart])
    (by simp [histOf, fileStart])

/-- C2: each history version stores the content from immediately before the
overwrite that created it and getComponentHistory is newest first — amended:
the stated scenario ([v2, v1, prior] after three distinct updates, current
value excluded) holds in file-backend mode (also assuming the prior content
differs from v1, which the claimed shape presupposes); in database-backend
mode saveComponent records each NEW value as a history row instead, so the
same scenario on an initialized component yields [v3, v2, v1, prior],
including the current value. -/
theorem C2_history_amended (name fname p v1 v2 v3 : String)
    (hname : componentsOwn.lookup name = some fname)
    (h01 : p ≠ v1) (h12 : v1 ≠ v2) (h23 : v2 ≠ v3) :
    fileGetComponentHistory
      (fileUpdateComponent cfg10
        (fileUpdateComponent cfg10
          (fileUpdateComponent cfg10 (fileStart fname p cacheOff) name v1).1
          name v2).1
        name v3).1 name none true
      = Except.ok (Sum.inl [v2, v1, p])
    ∧ dbmGetComponentHistory
        (dbmUpdateComponent cfg10
          (dbmUpdateComponent cfg10
            (dbmUpdateComponent cfg10
              (⟨⟨[⟨name, name, p, 0⟩], [⟨1, name, p, 0⟩], 2, false, false⟩,
                cacheOff, [], 1⟩ : DbMgrState)
              name v1).1
            name v2).1
          name v3).1 name none true
      = Except.ok (Sum.inl [v3, v2, v1, p]) := by
  have hpr1 : pruneKeepNewest 10 [(0, p)] = [(0, p)] := by
    rw [pruneKeepNewest_eq_take _ _ (by simp)]
    exact List.take_of_length_le (by simp)
  have hpr2 : pruneKeepNewest 10 [(1, v1), (0, p)] = [(1, v1), (0, p)] := by
    rw [pruneKeepNewest_eq_take _ _ (by simp)]
    exact List.take_of_length_le (by simp)
  have hpr3 : pruneKeepNewest 10 [(2, v2), (1, v1), (0, p)] = [(2, v2), (1, v1), (0, p)] := by
    rw [pruneKeepNewest_eq_take _ _ (by simp)]
    exact List.take_of_length_le (by simp)
  have hsort : sortDescBy (fun x => x.1) [(2, v2), (1, v1), (0, p)]
      = [(2, v2), (1, v1), (0, p)] :=
    sortDescBy_eq_self _ _ (by simp)
  have hget : componentsGet name = some (JsProp.ownStr fname) := by
    simp [componentsGet, hname]
  constructor
  · simp [fileUpdateComponent, fileUpdateFinish, fileSaveToHistory, fileGetComponentHistory,
      hget, fsExists, fsRead, fsWrite, fileStart, setAssoc, List.lookup,
      h01, h12, h23, hpr1, hpr2, hpr3, hsort, cfg10, cacheOff]
  · simp [dbmUpdateComponent, dbmGetComponentHistory, dbGetComponent, dbSaveComponent,
      dbSaveComponentHistory, dbUpsertComponent, dbGetComponentHistory, hget,
      sortDescBy, insDescBy, cacheOff, cfg10, List.find?]

/-- C2 counterexample: in database-backend mode, after updates v1, v2, v3 on
an initialized component with prior content p, getComponentHistory returns
[v3, v2, v1, p] — the new values including the current one — not
[v2, v1, p] as the claim states for both backends. -/
theorem C2_db_history_counterexample :
    dbmGetComponentHistory
      (dbmUpdateComponent cfg10
        (dbmUpdateComponent cfg10
          (dbmUpdateComponent cfg10
            (⟨⟨[⟨"activeContext", "activeContext", "p", 0⟩],
               [⟨1, "activeContext", "p", 0⟩], 2, false, false⟩,
              cacheOff, [], 1⟩ : DbMgrState)
            "activeContext" "v1").1
          "activeContext" "v2").1
        "activeContext" "v3").1 "activeContext" none true
      = Except.ok (Sum.inl ["v3", "v2", "v1", "p"])
    ∧ dbmGetComponentHistory
        (dbmUpdateComponent cfg10
          (dbmUpdateComponent cfg10
            (dbmUpdateComponent cfg10
              (⟨⟨[⟨"activeContext", "activeContext", "p", 0⟩],
                 [⟨1, "activeContext", "p", 0⟩], 2, false, false⟩,
                cacheOff, [], 1⟩ : DbMgrState)
              "activeContext" "v1").1
            "activeContext" "v2").1
          "activeContext" "v3").1 "activeContext" none true
      ≠ Except.ok (Sum.inl ["v2", "v1", "p"]) := by
  refine ⟨by rfl, ?_⟩
  rw [(by rfl : dbmGetComponentHistory
      (dbmUpdateComponent cfg10
        (dbmUpdateComponent cfg10
          (dbmUpdateComponent cfg10
            (⟨⟨[⟨"activeContext", "activeContext", "p", 0⟩],
               [⟨1, "activeContext", "p", 0⟩], 2, false, false⟩,
              cacheOff, [], 1⟩ : DbMgrState)
            "activeContext" "v1").1
          "activeContext" "v2").1
        "activeContext" "v3").1 "activeContext" none true
      = Except.ok (Sum.inl ["v3", "v2", "v1", "p"]))]
  simp

/-- C2 witness: the amended history theorem applied at the component
activeContext with concrete pairwise distinct contents. -/
theorem C2_history_amended_witness :
    fileGetComponentHistory
      (fileUpdateComponent cfg10
        (fileUpdateComponent cfg10
          (fileUpdateComponent cfg10 (fileStart "activeContext.md" "p0" cacheOff)
            "activeContext" "w1").1
          "activeContext" "w2").1
        "activeContext" "w3").1 "activeContext" none true
      = Except.ok (Sum.inl ["w2", "w1", "p0"])
    ∧ dbmGetComponentHistory
        (dbmUpdateComponent cfg10
          (dbmUpdateComponent cfg10
            (dbmUpdateComponent cfg10
              (⟨⟨[⟨"activeContext", "activeContext", "p0", 0⟩],
                 [⟨1, "activeContext", "p0", 0⟩], 2, false, false⟩,
                cacheOff, [], 1⟩ : DbMgrState)
              "activeContext" "w1").1
            "activeContext" "w2").1
          "activeContext" "w3").1 "activeContext" none true
      = Except.ok (Sum.inl ["w3", "w2", "w1", "p0"]) :=
  C2_history_amended "activeContext" "activeContext.md" "p0" "w1" "w2" "w3"
    (by decide) (by decide) (by decide) (by decide)

theorem dbUpsertComponent_flags (db : DbState) (cid cname content : String) (now : Nat) :
    (dbUpsertComponent db cid cname content now).failAll = db.failAll
    ∧ (dbUpsertComponent db cid cname content now).failHistory = db.failHistory
    ∧ (dbUpsertComponent db cid cname content now).nextHistoryId = db.nextHistoryId := by
  by_cases h : (db.components.find? (fun r => r.id = cid)).isSome <;>
    simp [dbUpsertComponent, h]

theorem dbSaveComponent_ok_no_fail (db : DbState) (cid cname content : String) (now : Nat)
    (hfa : db.failAll = false) (hfh : db.failHistory = false) :
    dbSaveComponent db cid cname content now
      = Except.ok { dbUpsertComponent db cid cname content now with
          history := (dbUpsertComponent db cid cname content now).history ++
            [⟨(dbUpsertComponent db cid cname content now).nextHistoryId, cid, content, now⟩],
          nextHistoryId := (dbUpsertComponent db cid cname content now).nextHistoryId + 1 } := by
  obtain ⟨hfa', hfh', -⟩ := dbUpsertComponent_flags db cid cname content now
  rw [hfa] at hfa'
  rw [hfh] at hfh'
  simp [dbSaveComponent, hfa, dbSaveComponentHistory, hfa', hfh']

theorem dbmUpdate_no_fail_effect (cfg : Config) (ds : DbMgrState) (name fname content : String)
    (hname : componentsOwn.lookup name = some fname)
    (hfa : ds.db.failAll = false) (hfh : ds.db.failHistory = false) :
    (dbmUpdateComponent cfg ds name content).1.db.history.length = ds.db.history.length + 1
    ∧ (dbmUpdateComponent cfg ds name content).1.db.failAll = false
    ∧ (dbmUpdateComponent cfg ds name content).1.db.failHistory = false := by
  have hg : componentsGet name = some (JsProp.ownStr fname) := by
    simp [componentsGet, hname]
  have hget : dbGetComponent ds.db name
      = Except.ok (ds.db.components.find? (fun r => r.id = name)) := by
    simp [dbGetComponent, hfa]
  have hsave := dbSaveComponent_ok_no_fail ds.db name name content ds.clock hfa hfh
  obtain ⟨hfa', hfh', -⟩ := dbUpsertComponent_flags ds.db name name content ds.clock
  have hhist := dbUpsertComponent_history ds.db name name content ds.clock
  by_cases hc : ds.cache.enabled <;> by_cases hrt : cfg.enableRealTimeUpdates <;>
    simp [dbmUpdateComponent, hg, hget, hsave, hc, hrt, hhist, hfa', hfh', hfa, hfh]

/-- C3: calling updateComponent twice in a row with the identical value v
creates exactly one new history version, capturing the value held before the
first call — amended: this holds in file-backend mode (assuming the prior
content differs from v and the history is within the bound); in
database-backend mode each of the two saveComponent calls inserts a history
row holding the NEW content v, so two rows are created, not one. -/
theorem C3_noop_amended (name fname w v : String)
    (hname : componentsOwn.lookup name = some fname) (hwv : w ≠ v) :
    histOf (fileUpdateComponent cfg10
      (fileUpdateComponent cfg10 (fileStart fname w cacheOff) name v).1 name v).1 name
      = [(0, w)]
    ∧ ∀ ds : DbMgrState, ds.db.failAll = false → ds.db.failHistory = false →
        (dbmUpdateComponent cfg10
          (dbmUpdateComponent cfg10 ds name v).1 name v).1.db.history.length
          = ds.db.history.length + 2 := by
  have hget : componentsGet name = some (JsProp.ownStr fname) := by
    simp [componentsGet, hname]
  have hpr1 : pruneKeepNewest 10 [(0, w)] = [(0, w)] := by
    rw [pruneKeepNewest_eq_take _ _ (by simp)]
    exact List.take_of_length_le (by simp)
  constructor
  · simp [fileUpdateComponent, fileUpdateFinish, fileSaveToHistory, hget, fsExists,
      fsRead, fsWrite, fileStart, setAssoc, List.lookup, hwv, hpr1, cfg10, cacheOff, histOf]
  · intro ds hfa hfh
    obtain ⟨h1len, h1fa, h1fh⟩ := dbmUpdate_no_fail_effect cfg10 ds name fname v hname hfa hfh
    obtain ⟨h2len, -, -⟩ := dbmUpdate_no_fail_effect cfg10
      (dbmUpdateComponent cfg10 ds name v).1 name fname v hname h1fa h1fh
    omega

/-- C3 counterexample: in database-backend mode, two consecutive updates with
the identical value v insert two history rows (both holding v), not one. -/
theorem C3_db_noop_counterexample :
    (dbmUpdateComponent cfg10
      (dbmUpdateComponent cfg10
        (⟨⟨[⟨"activeContext", "activeContext", "w", 0⟩], [], 1, false, false⟩,
          cacheOff, [], 1⟩ : DbMgrState)
        "activeContext" "v").1
      "activeContext" "v").1.db.history
    = [⟨1, "activeContext", "v", 1⟩, ⟨2, "activeContext", "v", 2⟩] := by rfl

/-- C3 witness: the amended no-op-suppression theorem applied at
activeContext with concrete contents w and v. -/
theorem C3_noop_amended_witness :
    histOf (fileUpdateComponent cfg10
      (fileUpdateComponent cfg10 (fileStart "activeContext.md" "w" cacheOff)
        "activeContext" "v").1 "activeContext" "v").1 "activeContext"
      = [(0, "w")]
    ∧ ∀ ds : DbMgrState, ds.db.failAll = false → ds.db.failHistory = false →
        (dbmUpdateComponent cfg10
          (dbmUpdateComponent cfg10 ds "activeContext" "v").1 "activeContext" "v").1.db.history.length
          = ds.db.history.length + 2 :=
  C3_noop_amended "activeContext" "activeContext.md" "w" "v" (by decide) (by decide)

/-- C4: getComponent/updateComponent on an id outside the fixed known set
always fail with UnknownComponent and never partially succeed — amended: this
holds for every string that is neither a known component id nor the name of a
property inherited from Object.prototype (the state is returned unchanged: no
backend access, no cache change, no notification). For an inherited name such
as "constructor" the truthiness guard passes: in file mode the operations
then fail later with a TypeError out of path.join (not UnknownComponent), and
in database mode updateComponent even succeeds and writes a backend row (see
the counterexample). -/
theorem C4_unknown_amended (cfg : Config) (s : FileMgrState) (ds : DbMgrState)
    (name content : String)
    (hown : componentsOwn.lookup name = none)
    (hproto : name ∉ objectProtoProps) :
    fileGetComponent s name = (s, Except.error ("Unknown component: " ++ name))
    ∧ fileUpdateComponent cfg s name content
        = (s, Except.error ("Unknown component: " ++ name))
    ∧ fileAppendToComponent cfg s name content
        = (s, Except.error ("Unknown component: " ++ name))
    ∧ dbmGetComponent ds name = (ds, Except.error ("Unknown component: " ++ name))
    ∧ dbmUpdateComponent cfg ds name content
        = (ds, Except.error ("Unknown component: " ++ name))
    ∧ dbmAppendToComponent ds name content
        = (ds, Except.error ("Unknown component: " ++ name)) := by
  have hg : componentsGet name = none := by
    simp [componentsGet, hown, hproto]
  exact ⟨by simp [fileGetComponent, hg], by simp [fileUpdateComponent, hg],
    by simp [fileAppendToComponent, hg], by simp [dbmGetComponent, hg],
    by simp [dbmUpdateComponent, hg], by simp [dbmAppendToComponent, hg]⟩

/-- C4 counterexample: "constructor" is not one of the fixed known component
ids, yet updateComponent does not fail with UnknownComponent: in database
mode it succeeds outright — writing a components row and a history row,
publishing a component-created notification and returning true — and in file
mode it fails with a TypeError thrown inside path.join, not with the
UnknownComponent error. -/
theorem C4_prototype_counterexample :
    componentsOwn.lookup "constructor" = none
    ∧ dbmUpdateComponent cfg10 (⟨⟨[], [], 1, false, false⟩, cacheOff, [], 0⟩ : DbMgrState)
        "constructor" "x"
      = (⟨⟨[⟨"constructor", "constructor", "x", 0⟩], [⟨1, "constructor", "x", 0⟩],
          2, false, false⟩, cacheOff, [Event.componentCreated "constructor" "x"], 1⟩,
         Except.ok true)
    ∧ (fileUpdateComponent cfg10 (fileStart "activeContext.md" "p" cacheOff)
        "constructor" "x").2
      = Except.error "TypeError: path must be a string, got a function for constructor" :=
  ⟨by rfl, by rfl, by rfl⟩

/-- C4 witness: the amended unknown-component theorem applied at the unknown
id "workflow" on concrete file and database states. -/
theorem C4_unknown_amended_witness :
    fileGetComponent (fileStart "activeContext.md" "p" cacheOff) "workflow"
      = (fileStart "activeContext.md" "p" cacheOff,
         Except.error ("Unknown component: " ++ "workflow"))
    ∧ fileUpdateComponent cfg10 (fileStart "activeContext.md" "p" cacheOff) "workflow" "c"
        = (fileStart "activeContext.md" "p" cacheOff,
           Except.error ("Unknown component: " ++ "workflow"))
    ∧ fileAppendToComponent cfg10 (fileStart "activeContext.md" "p" cacheOff) "workflow" "c"
        = (fileStart "activeContext.md" "p" cacheOff,
           Except.error ("Unknown component: " ++ "workflow"))
    ∧ dbmGetComponent (⟨⟨[], [], 1, false, false⟩, cacheOff, [], 0⟩ : DbMgrState) "workflow"
        = (⟨⟨[], [], 1, false, false⟩, cacheOff, [], 0⟩,
           Except.error ("Unknown component: " ++ "workflow"))
    ∧ dbmUpdateComponent cfg10 (⟨⟨[], [], 1, false, false⟩, cacheOff, [], 0⟩ : DbMgrState)
        "workflow" "c"
        = (⟨⟨[], [], 1, false, false⟩, cacheOff, [], 0⟩,
           Except.error ("Unknown component: " ++ "workflow"))
    ∧ dbmAppendToComponent (⟨⟨[], [], 1, false, false⟩, cacheOff, [], 0⟩ : DbMgrState)
        "workflow" "c"
        = (⟨⟨[], [], 1, false, false⟩, cacheOff, [], 0⟩,
           Except.error ("Unknown component: " ++ "workflow")) :=
  C4_unknown_amended cfg10 (fileStart "activeContext.md" "p" cacheOff)
    ⟨⟨[], [], 1, false, false⟩, cacheOff, [], 0⟩ "workflow" "c" (by decide) (by decide)

/-- Hit-counter increment performed on a cache hit. -/
def bumpHits (c : CacheState) : CacheState :=
  { c with hits := c.hits + 1 }

/-- A file-backend state with its backend contents (files and history
directories) replaced: used to express that an operation does not read the
backend. -/
def withFs (s : FileMgrState) (files' : List (String × String))
    (histDirs' : List (String × List (Nat × String))) : FileMgrState :=
  { s with files := files', histDirs := histDirs' }

/-- A database-mode state with its database replaced: used to express that an
operation does not query the database. -/
def withDb (ds : DbMgrState) (db' : DbState) : DbMgrState :=
  { ds with db := db' }

theorem fileGetComponent_cache_hit (s : FileMgrState) (name fname v : String)
    (hname : componentsOwn.lookup name = some fname)
    (hc : s.cache.enabled = true)
    (hv : s.cache.data.lookup name = some v) (hne : v ≠ "") :
    fileGetComponent s name
      = ({ s with cache := bumpHits s.cache }, Except.ok (JsValue.str v)) := by
  have hg : componentsGet name = some (JsProp.ownStr fname) := by
    simp [componentsGet, hname]
  have ht : cacheTruthy s.cache.data name = true := by
    simp [cacheTruthy, hv, bne_iff_ne, hne]
  simp [fileGetComponent, hg, hc, ht, hv, bumpHits]

theorem dbmGetComponent_cache_hit (ds : DbMgrState) (name fname v : String)
    (hname : componentsOwn.lookup name = some fname)
    (hc : ds.cache.enabled = true)
    (hv : ds.cache.data.lookup name = some v) (hne : v ≠ "") :
    dbmGetComponent ds name
      = ({ ds with cache := bumpHits ds.cache }, Except.ok (JsValue.str v)) := by
  have hg : componentsGet name = some (JsProp.ownStr fname) := by
    simp [componentsGet, hname]
  have ht : cacheTruthy ds.cache.data name = true := by
    simp [cacheTruthy, hv, bne_iff_ne, hne]
  simp [dbmGetComponent, hg, hc, ht, hv, bumpHits]

theorem fileSaveToHistory_preserves (cfg : Config) (s : FileMgrState) (name content : String) :
    (fileSaveToHistory cfg s name content).1.cache = s.cache
    ∧ (fileSaveToHistory cfg s name content).1.badFiles = s.badFiles
    ∧ (fileSaveToHistory cfg s name content).1.files = s.files := by
  by_cases hbad : name ∈ s.badHistory <;> by_cases hrt : cfg.enableRealTimeUpdates <;>
    simp [fileSaveToHistory, hbad, hrt]

theorem fileUpdateFinish_cache (cfg : Config) (s : FileMgrState) (name fname content : String)
    (isNew : Bool) (hc : s.cache.enabled = true) (hgoodf : fname ∉ s.badFiles) :
    (fileUpdateFinish cfg s name fname content isNew).2 = Except.ok true
    ∧ (fileUpdateFinish cfg s name fname content isNew).1.cache.enabled = true
    ∧ (fileUpdateFinish cfg s name fname content isNew).1.cache.data.lookup name
        = some content := by
  by_cases hrt : cfg.enableRealTimeUpdates <;>
    simp [fileUpdateFinish, fsWrite, hgoodf, hc, hrt, lookup_setAssoc_self]

theorem fileUpdateComponent_cache_after (cfg : Config) (s : FileMgrState)
    (name fname v : String)
    (hname : componentsOwn.lookup name = some fname)
    (hc : s.cache.enabled = true)
    (hgoodf : fname ∉ s.badFiles) :
    (fileUpdateComponent cfg s name v).2 = Except.ok true
    ∧ (fileUpdateComponent cfg s name v).1.cache.enabled = true
    ∧ (fileUpdateComponent cfg s name v).1.cache.data.lookup name = some v := by
  have hg : componentsGet name = some (JsProp.ownStr fname) := by
    simp [componentsGet, hname]
  by_cases hex : fsExists s fname = true
  · have hex' : (s.files.lookup fname).isSome = true := hex
    obtain ⟨cur, hcur⟩ := Option.isSome_iff_exists.mp hex'
    have hread : fsRead s fname = Except.ok cur := by simp [fsRead, hgoodf, hcur]
    by_cases hne : cur = v
    · have heq : fileUpdateComponent cfg s name v = fileUpdateFinish cfg s name fname v false := by
        simp [fileUpdateComponent, hg, hex, hread, hne]
      rw [heq]
      exact fileUpdateFinish_cache cfg s name fname v false hc hgoodf
    · obtain ⟨hp1, hp2, -⟩ := fileSaveToHistory_preserves cfg s name cur
      have heq : fileUpdateComponent cfg s name v
          = fileUpdateFinish cfg (fileSaveToHistory cfg s name cur).1 name fname v false := by
        simp [fileUpdateComponent, hg, hex, hread, hne]
      rw [heq]
      exact fileUpdateFinish_cache cfg (fileSaveToHistory cfg s name cur).1 name fname v false
        (by rw [hp1]; exact hc) (by rw [hp2]; exact hgoodf)
  · have heq : fileUpdateComponent cfg s name v = fileUpdateFinish cfg s name fname v true := by
      simp [fileUpdateComponent, hg, hex]
    rw [heq]
    exact fileUpdateFinish_cache cfg s name fname v true hc hgoodf

theorem dbmUpdateComponent_cache_after (cfg : Config) (ds : DbMgrState) (name fname v : String)
    (hname : componentsOwn.lookup name = some fname)
    (hc : ds.cache.enabled = true) (hfa : ds.db.failAll = false) :
    (dbmUpdateComponent cfg ds name v).2 = Except.ok true
    ∧ (dbmUpdateComponent cfg ds name v).1.cache.enabled = true
    ∧ (dbmUpdateComponent cfg ds name v).1.cache.data.lookup name = some v := by
  have hg : componentsGet name = some (JsProp.ownStr fname) := by
    simp [componentsGet, hname]
  have hget : dbGetComponent ds.db name
      = Except.ok (ds.db.components.find? (fun r => r.id = name)) := by
    simp [dbGetComponent, hfa]
  have key : ∀ dbX, dbSaveComponent ds.db name name v ds.clock = Except.ok dbX →
      (dbmUpdateComponent cfg ds name v).2 = Except.ok true
      ∧ (dbmUpdateComponent cfg ds name v).1.cache.enabled = true
      ∧ (dbmUpdateComponent cfg ds name v).1.cache.data.lookup name = some v := by
    intro dbX hsave
    by_cases hrt : cfg.enableRealTimeUpdates <;>
      simp [dbmUpdateComponent, hg, hget, hsave, hc, hrt, lookup_setAssoc_self]
  cases hsv : dbSaveComponentHistory (dbUpsertComponent ds.db name name v ds.clock)
      name v ds.clock with
  | ok db2 => exact key db2 (by simp [dbSaveComponent, hfa, hsv])
  | error e =>
    exact key (dbUpsertComponent ds.db name name v ds.clock)
      (by simp [dbSaveComponent, hfa, hsv])

/-- C6: with caching enabled, updateComponent(id, v) immediately followed by
getComponent(id) returns exactly v without backend access and without the
miss counter incrementing — amended to nonempty v: the get is then a pure
cache hit whose result and final state do not depend on the stored files or
database rows at all (they can be replaced arbitrarily between the two
calls); only the hit counter increments. For v = "" the cached value is falsy
in the truthiness check, so the read falls through to the backend (see the
counterexample), though it still returns v and the miss counter still does
not increment. -/
theorem C6_cache_amended (cfg : Config) (s : FileMgrState) (ds : DbMgrState)
    (name fname v : String)
    (hname : componentsOwn.lookup name = some fname)
    (hv : v ≠ "")
    (hcf : s.cache.enabled = true)
    (hgoodf : fname ∉ s.badFiles)
    (hcd : ds.cache.enabled = true)
    (hfa : ds.db.failAll = false) :
    ((fileUpdateComponent cfg s name v).2 = Except.ok true
      ∧ ∀ files' histDirs',
          fileGetComponent (withFs (fileUpdateComponent cfg s name v).1 files' histDirs') name
            = ({ withFs (fileUpdateComponent cfg s name v).1 files' histDirs' with
                  cache := bumpHits (withFs (fileUpdateComponent cfg s name v).1
                    files' histDirs').cache },
               Except.ok (JsValue.str v)))
    ∧ ((dbmUpdateComponent cfg ds name v).2 = Except.ok true
      ∧ ∀ db',
          dbmGetComponent (withDb (dbmUpdateComponent cfg ds name v).1 db') name
            = ({ withDb (dbmUpdateComponent cfg ds name v).1 db' with
                  cache := bumpHits (withDb (dbmUpdateComponent cfg ds name v).1 db').cache },
               Except.ok (JsValue.str v))) := by
  obtain ⟨hf1, hf2, hf3⟩ := fileUpdateComponent_cache_after cfg s name fname v hname hcf hgoodf
  obtain ⟨hd1, hd2, hd3⟩ := dbmUpdateComponent_cache_after cfg ds name fname v hname hcd hfa
  refine ⟨⟨hf1, fun files' histDirs' => ?_⟩, ⟨hd1, fun db' => ?_⟩⟩
  · exact fileGetComponent_cache_hit _ name fname v hname hf2 hf3 hv
  · exact dbmGetComponent_cache_hit _ name fname v hname hd2 hd3 hv

/-- C6 counterexample: with caching enabled, after updateComponent with the
empty string the immediate getComponent does read the backend — replacing the
stored file between the two calls changes the result to the planted value
"Z", which could not happen without a backend access. -/
theorem C6_empty_cache_counterexample :
    (fileGetComponent
        (fileUpdateComponent cfg10 (fileStart "activeContext.md" "x" cacheOn)
          "activeContext" "").1 "activeContext").2 = Except.ok (JsValue.str "")
    ∧ (fileGetComponent
        { (fileUpdateComponent cfg10 (fileStart "activeContext.md" "x" cacheOn)
            "activeContext" "").1 with files := [("activeContext.md", "Z")] }
        "activeContext").2 = Except.ok (JsValue.str "Z") :=
  ⟨by rfl, by rfl⟩

/-- C6 witness: the amended cache theorem applied at activeContext with
content "v", reading back from a state whose backend files were emptied —
the cached value is still returned. -/
theorem C6_cache_amended_witness :
    fileGetComponent (withFs (fileUpdateComponent cfg10
        (fileStart "activeContext.md" "x" cacheOn) "activeContext" "v").1 [] []) "activeContext"
      = ({ withFs (fileUpdateComponent cfg10 (fileStart "activeContext.md" "x" cacheOn)
            "activeContext" "v").1 [] [] with
            cache := bumpHits (withFs (fileUpdateComponent cfg10
              (fileStart "activeContext.md" "x" cacheOn) "activeContext" "v").1 [] []).cache },
         Except.ok (JsValue.str "v")) :=
  (C6_cache_amended cfg10 (fileStart "activeContext.md" "x" cacheOn)
    ⟨⟨[], [], 1, false, false⟩, cacheOn, [], 0⟩ "activeContext" "activeContext.md" "v"
    (by decide) (by decide) (by decide) (by decide) (by decide) (by decide)).1.2 [] []

/-- C7: appendToComponent(id, c) is claimed equivalent to
updateComponent(id, currentContent + c) with the same history versions and
the same notifications — amended: only the final stored content agrees (with
empty prior content when absent). The history and notification semantics
differ: append publishes no component-created/updated notification at all
(only history-added), append records a history version even when the content
is unchanged (c = "") while update skips the no-op history write, and with
caching enabled append rebuilds the cache entry from the previously cached
value (empty when cold) rather than from the stored content. -/
theorem C7_append_amended (s : FileMgrState) (name fname cur c : String)
    (hname : componentsOwn.lookup name = some fname)
    (hcur : s.files.lookup fname = some cur)
    (hbf : s.badFiles = []) (hbh : s.badHistory = [])
    (hcache : s.cache = ⟨true, [], 0, 0⟩)
    (hev : s.events = [])
    (hhd : s.histDirs.lookup name = none)
    (hne : cur ≠ cur ++ c) :
    ((fileAppendToComponent cfg10 s name c).1.files.lookup fname = some (cur ++ c)
      ∧ (fileUpdateComponent cfg10 s name (cur ++ c)).1.files.lookup fname
          = some (cur ++ c))
    ∧ (fileAppendToComponent cfg10 s name c).1.events
        = [Event.historyAdded name (toString s.clock)]
    ∧ (fileUpdateComponent cfg10 s name (cur ++ c)).1.events
        = [Event.historyAdded name (toString s.clock),
           Event.componentUpdated name (contentPreview (cur ++ c))]
    ∧ histOf (fileAppendToComponent cfg10 s name "").1 name = [(s.clock, cur)]
    ∧ histOf (fileUpdateComponent cfg10 s name cur).1 name = histOf s name
    ∧ (fileAppendToComponent cfg10 s name c).1.cache.data.lookup name = some c
    ∧ (fileUpdateComponent cfg10 s name (cur ++ c)).1.cache.data.lookup name
        = some (cur ++ c) := by
  have hg : componentsGet name = some (JsProp.ownStr fname) := by
    simp [componentsGet, hname]
  have hex : fsExists s fname = true := by simp [fsExists, hcur]
  have hread : fsRead s fname = Except.ok cur := by simp [fsRead, hbf, hcur]
  have hpr : pruneKeepNewest 10 [(s.clock, cur)] = [(s.clock, cur)] := by
    rw [pruneKeepNewest_eq_take _ _ (by simp)]
    exact List.take_of_length_le (by simp)
  refine ⟨⟨?_, ?_⟩, ?_, ?_, ?_, ?_, ?_, ?_⟩ <;>
    simp [fileAppendToComponent, fileUpdateComponent, fileUpdateFinish, fileSaveToHistory,
      fileAppendCache, fsWrite, hg, hex, hread, hbf, hbh, hcache, hev, hhd, hne, hpr,
      cfg10, lookup_setAssoc_self, histOf]

/-- C7 counterexample: from the same state with activeContext holding "A",
append("B") and update("AB") store the same content but publish different
notifications (append emits no component-updated event), and append("")
records a history version while the equivalent update("A") records none. -/
theorem C7_append_counterexample :
    (fileAppendToComponent cfg10 (fileStart "activeContext.md" "A" cacheOff)
        "activeContext" "B").1.events
      = [Event.historyAdded "activeContext" "0"]
    ∧ (fileUpdateComponent cfg10 (fileStart "activeContext.md" "A" cacheOff)
        "activeContext" "AB").1.events
      = [Event.historyAdded "activeContext" "0",
         Event.componentUpdated "activeContext" "AB"]
    ∧ (fileAppendToComponent cfg10 (fileStart "activeContext.md" "A" cacheOff)
        "activeContext" "B").1.events
      ≠ (fileUpdateComponent cfg10 (fileStart "activeContext.md" "A" cacheOff)
        "activeContext" "AB").1.events
    ∧ histOf (fileAppendToComponent cfg10 (fileStart "activeContext.md" "A" cacheOff)
        "activeContext" "").1 "activeContext" = [(0, "A")]
    ∧ histOf (fileUpdateComponent cfg10 (fileStart "activeContext.md" "A" cacheOff)
        "activeContext" "A").1 "activeContext" = [] :=
  ⟨by rfl, by rfl, by decide, by rfl, by rfl⟩

/-- C7 witness: the amended append/update comparison applied at
activeContext holding "A" with a cold enabled cache and appended content
"B". -/
theorem C7_append_amended_witness :
    ((fileAppendToComponent cfg10 (fileStart "activeContext.md" "A" cacheOn)
        "activeContext" "B").1.files.lookup "activeContext.md" = some ("A" ++ "B")
      ∧ (fileUpdateComponent cfg10 (fileStart "activeContext.md" "A" cacheOn)
          "activeContext" ("A" ++ "B")).1.files.lookup "activeContext.md"
          = some ("A" ++ "B"))
    ∧ (fileAppendToComponent cfg10 (fileStart "activeContext.md" "A" cacheOn)
        "activeContext" "B").1.events
        = [Event.historyAdded "activeContext"
            (toString (fileStart "activeContext.md" "A" cacheOn).clock)]
    ∧ (fileUpdateComponent cfg10 (fileStart "activeContext.md" "A" cacheOn)
        "activeContext" ("A" ++ "B")).1.events
        = [Event.historyAdded "activeContext"
            (toString (fileStart "activeContext.md" "A" cacheOn).clock),
           Event.componentUpdated "activeContext" (contentPreview ("A" ++ "B"))]
    ∧ histOf (fileAppendToComponent cfg10 (fileStart "activeContext.md" "A" cacheOn)
        "activeContext" "").1 "activeContext"
        = [((fileStart "activeContext.md" "A" cacheOn).clock, "A")]
    ∧ histOf (fileUpdateComponent cfg10 (fileStart "activeContext.md" "A" cacheOn)
        "activeContext" "A").1 "activeContext"
        = histOf (fileStart "activeContext.md" "A" cacheOn) "activeContext"
    ∧ (fileAppendToComponent cfg10 (fileStart "activeContext.md" "A" cacheOn)
        "activeContext" "B").1.cache.data.lookup "activeContext" = some "B"
    ∧ (fileUpdateComponent cfg10 (fileStart "activeContext.md" "A" cacheOn)
        "activeContext" ("A" ++ "B")).1.cache.data.lookup "activeContext"
        = some ("A" ++ "B") :=
  C7_append_amended (fileStart "activeContext.md" "A" cacheOn) "activeContext"
    "activeContext.md" "A" "B" (by decide) (by decide) (by decide) (by decide)
    (by decide) (by decide) (by decide) (by decide)

/-- Database-mode manager state over a failing database connection. -/
def dbFailState : DbMgrState := ⟨⟨[], [], 1, true, false⟩, cacheOff, [], 0⟩

/-- C8: backend I/O errors propagate to the caller except for history-version
writes during a write path — amended: getComponent, updateComponent and
getComponentHistory do propagate backend errors (shown in both modes), and a
history-write failure during updateComponent is indeed swallowed with the
primary write succeeding; but, contrary to the claim, getAllComponents and
isInitialized do NOT surface backend errors: getAllComponents substitutes the
empty string per failing component (file mode) or returns an empty result
(database mode), and isInitialized returns false. -/
theorem C8_errors_amended :
    (fileGetComponent { fileStart "activeContext.md" "x" cacheOff with
        badFiles := ["activeContext.md"] } "activeContext").2
      = Except.error "EIO: read activeContext.md"
    ∧ (fileUpdateComponent cfg10
        (⟨[], [], ["activeContext.md"], [], cacheOff, [], 0⟩ : FileMgrState)
        "activeContext" "y").2
      = Except.error "EIO: write activeContext.md"
    ∧ ((fileUpdateComponent cfg10 { fileStart "activeContext.md" "x" cacheOff with
          badHistory := ["activeContext"] } "activeContext" "y").2 = Except.ok true
      ∧ (fileUpdateComponent cfg10 { fileStart "activeContext.md" "x" cacheOff with
          badHistory := ["activeContext"] } "activeContext" "y").1.histDirs = []
      ∧ (fileUpdateComponent cfg10 { fileStart "activeContext.md" "x" cacheOff with
          badHistory := ["activeContext"] } "activeContext" "y").1.files
          = [("activeContext.md", "y")]
      ∧ (fileUpdateComponent cfg10 { fileStart "activeContext.md" "x" cacheOff with
          badHistory := ["activeContext"] } "activeContext" "y").1.events
          = [Event.componentUpdated "activeContext" "y"])
    ∧ fileGetComponentHistory
        (⟨[("activeContext.md", "x")], [("activeContext", [(0, "x")])], [],
          ["activeContext"], cacheOff, [], 1⟩ : FileMgrState)
        "activeContext" none false
      = Except.error "EIO: history of activeContext"
    ∧ (dbmGetComponent dbFailState "activeContext").2
      = Except.error "SQLITE_ERROR: getComponent"
    ∧ (dbmUpdateComponent cfg10 dbFailState "activeContext" "y").2
      = Except.error "SQLITE_ERROR: getComponent"
    ∧ ((dbmUpdateComponent cfg10
        (⟨⟨[⟨"activeContext", "activeContext", "x", 0⟩], [], 1, false, true⟩,
          cacheOff, [], 5⟩ : DbMgrState) "activeContext" "y").2 = Except.ok true
      ∧ (dbmUpdateComponent cfg10
          (⟨⟨[⟨"activeContext", "activeContext", "x", 0⟩], [], 1, false, true⟩,
            cacheOff, [], 5⟩ : DbMgrState) "activeContext" "y").1.db.history = []
      ∧ (dbmUpdateComponent cfg10
          (⟨⟨[⟨"activeContext", "activeContext", "x", 0⟩], [], 1, false, true⟩,
            cacheOff, [], 5⟩ : DbMgrState) "activeContext" "y").1.db.components
          = [⟨"activeContext", "activeContext", "y", 5⟩])
    ∧ dbmIsInitialized dbFailState = false
    ∧ dbmGetAllComponents dbFailState = (dbFailState, [])
    ∧ dbGetAllComponents dbFailState.db = Except.error "SQLITE_ERROR: getAllComponents"
    ∧ (fileGetAllComponents { fileStart "activeContext.md" "x" cacheOff with
        badFiles := ["activeContext.md"] }).2
      = [("activeContext", ""), ("productContext", defaultContent "productContext"),
         ("decisionLog", defaultContent "decisionLog"),
         ("progress", defaultContent "progress"),
         ("systemPatterns", defaultContent "systemPatterns")] :=
  ⟨by rfl, by rfl, ⟨by rfl, by rfl, by rfl, by rfl⟩, by rfl, by rfl, by rfl,
   ⟨by rfl, by rfl, by rfl⟩, by rfl, by rfl, by rfl, by rfl⟩

/-- C8 counterexample: with a failing database connection, isInitialized
returns false and getAllComponents returns an empty result — both swallow the
backend error that the adapter demonstrably raises — contradicting the claim
that these operations surface backend errors to the caller. In file mode,
getAllComponents likewise replaces a failing component read by the empty
string instead of erroring. -/
theorem C8_swallow_counterexample :
    dbmIsInitialized dbFailState = false
    ∧ dbmGetAllComponents dbFailState = (dbFailState, [])
    ∧ dbGetComponent dbFailState.db "activeContext"
        = Except.error "SQLITE_ERROR: getComponent"
    ∧ ((fileGetAllComponents { fileStart "activeContext.md" "x" cacheOff with
          badFiles := ["activeContext.md"] }).2.lookup "activeContext" = some ""
      ∧ fsRead { fileStart "activeContext.md" "x" cacheOff with
          badFiles := ["activeContext.md"] } "activeContext.md"
          = Except.error "EIO: read activeContext.md") :=
  ⟨by rfl, by rfl, by rfl, ⟨by rfl, by rfl⟩⟩

/-- Listener run with the subscription-present check dropped — the behaviour
of nmEmitGo when every listener's subscription is present. -/
def runListeners : List NmListener → List Nat × Option Nat
  | [] => ([], none)
  | l :: rest =>
    if l.callback.throws then ([l.callback.id], some l.callback.id)
    else
      let r := runListeners rest
      (l.callback.id :: r.1, r.2)

/-- Specification of synchronous in-order delivery with exception
propagation: the callbacks run in subscription order up to and including the
first one that throws. -/
def deliverSeq : List (String × Callback) → List Nat × Option Nat
  | [] => ([], none)
  | p :: rest =>
    if p.2.throws then ([p.2.id], some p.2.id)
    else
      let r := deliverSeq rest
      (p.2.id :: r.1, r.2)

/-- Sequential composition of two delivery runs: the second run is reached
only when the first threw nothing. -/
def mergeRuns (a b : List Nat × Option Nat) : List Nat × Option Nat :=
  match a.2 with
  | some err => (a.1, some err)
  | none => (a.1 ++ b.1, b.2)

/-- Freshly constructed notification manager. -/
def nmInitial : NmState := ⟨[], [], 0⟩

/-- A sequence of subscribe calls, each for all event types (null
eventTypes). -/
def subscribeSeq (s : NmState) (ps : List (String × Callback)) : NmState :=
  ps.foldl (fun st p => (nmSubscribe st p.1 none p.2).1) s

theorem mergeRuns_nil_left (b : List Nat × Option Nat) : mergeRuns ([], none) b = b := by
  cases b with
  | mk lb eb => simp [mergeRuns]

theorem mergeRuns_nil_right (a : List Nat × Option Nat) : mergeRuns a ([], none) = a := by
  cases a with
  | mk la ea => cases ea <;> simp [mergeRuns]

theorem mergeRuns_assoc (a b c' : List Nat × Option Nat) :
    mergeRuns (mergeRuns a b) c' = mergeRuns a (mergeRuns b c') := by
  obtain ⟨la, ea⟩ := a
  obtain ⟨lb, eb⟩ := b
  obtain ⟨lc, ec⟩ := c'
  cases ea <;> cases eb <;> simp [mergeRuns, List.append_assoc]

theorem nmEmitGo_all_present (subs : List (String × NmSubscription)) (L : List NmListener)
    (h : ∀ l ∈ L, (subs.lookup l.subId).isSome) :
    nmEmitGo subs L = runListeners L := by
  induction L with
  | nil => rfl
  | cons l rest ih =>
    have hl := h l (by simp)
    have hrest : ∀ l' ∈ rest, (subs.lookup l'.subId).isSome :=
      fun l' h' => h l' (by simp [h'])
    by_cases ht : l.callback.throws <;>
      simp [nmEmitGo, runListeners, hl, ht, ih hrest]

theorem nmEmitGo_append (subs : List (String × NmSubscription)) (L1 L2 : List NmListener) :
    nmEmitGo subs (L1 ++ L2) = mergeRuns (nmEmitGo subs L1) (nmEmitGo subs L2) := by
  induction L1 with
  | nil => simp [nmEmitGo, mergeRuns_nil_left]
  | cons l rest ih =>
    rw [List.cons_append]
    by_cases hp : (subs.lookup l.subId).isSome
    · by_cases ht : l.callback.throws
      · simp [nmEmitGo, hp, ht, mergeRuns]
      · rcases hr1 : nmEmitGo subs rest with ⟨l1, e1⟩
        rcases hr2 : nmEmitGo subs L2 with ⟨l2, e2⟩
        have ih' := ih
        rw [hr1, hr2] at ih'
        simp only [nmEmitGo, hp, ht, if_true, if_false, ih', hr1, hr2]
        cases e1 <;> simp [mergeRuns]
    · simp [nmEmitGo, hp, ih]

/-- The listeners a null-eventTypes subscription registers contribute exactly
one listener for each real event type. -/
theorem blockFilter (e sid : String) (cb : Callback) (he : e ∈ eventTypeValues) :
    (eventTypeValues.map (fun e' => (⟨e', sid, cb⟩ : NmListener))).filter
      (fun l => decide (l.eventType = e)) = [⟨e, sid, cb⟩] := by
  simp only [eventTypeValues, List.mem_cons, List.not_mem_nil, or_false] at he
  rcases he with rfl | rfl | rfl | rfl | rfl <;> rfl

theorem nmSubscribe_pres (s : NmState) (conn : String) (et : Option (List String))
    (cb : Callback)
    (hpres : ∀ l ∈ s.listeners, (s.subscriptions.lookup l.subId).isSome) :
    ∀ l ∈ (nmSubscribe s conn et cb).1.listeners,
      ((nmSubscribe s conn et cb).1.subscriptions.lookup l.subId).isSome := by
  intro l hl
  simp only [nmSubscribe, List.mem_append] at hl ⊢
  rcases hl with h | h
  · exact lookup_setAssoc_isSome_mono _ _ _ _ (hpres l h)
  · obtain ⟨e', -, rfl⟩ := List.mem_map.mp h
    simp [lookup_setAssoc_self]

theorem nmSubscribe_none_emit (s : NmState) (conn : String) (cb : Callback) (e : String)
    (he : e ∈ eventTypeValues)
    (hpres : ∀ l ∈ s.listeners, (s.subscriptions.lookup l.subId).isSome) :
    nmEmit (nmSubscribe s conn none cb).1 e
      = mergeRuns (nmEmit s e)
          (runListeners [⟨e, conn ++ "-" ++ toString s.clock, cb⟩]) := by
  have hfilter : (s.listeners ++ eventTypeValues.map
        (fun e' => (⟨e', conn ++ "-" ++ toString s.clock, cb⟩ : NmListener))).filter
        (fun l => decide (l.eventType = e))
      = s.listeners.filter (fun l => decide (l.eventType = e))
        ++ [⟨e, conn ++ "-" ++ toString s.clock, cb⟩] := by
    rw [List.filter_append, blockFilter e _ cb he]
  have hpresOld : ∀ l ∈ s.listeners.filter (fun l => decide (l.eventType = e)),
      (((nmSubscribe s conn none cb).1.subscriptions).lookup l.subId).isSome := by
    intro l hl
    exact lookup_setAssoc_isSome_mono _ _ _ _ (hpres l (List.mem_of_mem_filter hl))
  have hpresOld0 : ∀ l ∈ s.listeners.filter (fun l => decide (l.eventType = e)),
      ((s.subscriptions).lookup l.subId).isSome := by
    intro l hl
    exact hpres l (List.mem_of_mem_filter hl)
  have hpresNew : ∀ l ∈ [(⟨e, conn ++ "-" ++ toString s.clock, cb⟩ : NmListener)],
      (((nmSubscribe s conn none cb).1.subscriptions).lookup l.subId).isSome := by
    intro l hl
    rcases List.mem_singleton.mp hl with rfl
    simp [nmSubscribe, lookup_setAssoc_self]
  calc nmEmit (nmSubscribe s conn none cb).1 e
      = nmEmitGo (nmSubscribe s conn none cb).1.subscriptions
          (s.listeners.filter (fun l => decide (l.eventType = e))
            ++ [⟨e, conn ++ "-" ++ toString s.clock, cb⟩]) := by
        simp only [nmEmit, nmSubscribe]
        rw [← hfilter]
    _ = mergeRuns
          (nmEmitGo (nmSubscribe s conn none cb).1.subscriptions
            (s.listeners.filter (fun l => decide (l.eventType = e))))
          (nmEmitGo (nmSubscribe s conn none cb).1.subscriptions
            [⟨e, conn ++ "-" ++ toString s.clock, cb⟩]) := by
        rw [nmEmitGo_append]
    _ = mergeRuns (nmEmit s e)
          (runListeners [⟨e, conn ++ "-" ++ toString s.clock, cb⟩]) := by
        rw [nmEmitGo_all_present _ _ hpresOld, nmEmitGo_all_present _ _ hpresNew]
        have hemit : nmEmit s e
            = runListeners (s.listeners.filter (fun l => decide (l.eventType = e))) :=
          nmEmitGo_all_present s.subscriptions _ hpresOld0
        rw [hemit]

theorem nmEmit_subscribeSeq (ps : List (String × Callback)) (s : NmState) (e : String)
    (he : e ∈ eventTypeValues)
    (hpres : ∀ l ∈ s.listeners, (s.subscriptions.lookup l.subId).isSome) :
    nmEmit (subscribeSeq s ps) e = mergeRuns (nmEmit s e) (deliverSeq ps) := by
  induction ps generalizing s with
  | nil => simp [subscribeSeq, deliverSeq, mergeRuns_nil_right]
  | cons p rest ih =>
    have hstep := nmSubscribe_none_emit s p.1 p.2 e he hpres
    have hpres' := nmSubscribe_pres s p.1 none p.2 hpres
    have hseq : subscribeSeq s (p :: rest) = subscribeSeq (nmSubscribe s p.1 none p.2).1 rest := by
      simp [subscribeSeq]
    rw [hseq, ih _ hpres', hstep, mergeRuns_assoc]
    congr 1
    rcases hd : deliverSeq rest with ⟨ld, ed⟩
    by_cases ht : p.2.throws <;>
      simp [runListeners, deliverSeq, ht, mergeRuns, hd]

/-- C5: publish invokes each matching subscriber synchronously in
subscription order, and an exception in one callback is claimed to be caught
so later subscribers still run — amended: delivery is synchronous and in
subscription order, but an exception thrown by a callback is NOT caught: it
propagates out of emit, so exactly the subscribers up to and including the
thrower run, and every subscriber registered after the thrower is skipped. -/
theorem C5_delivery_amended :
    (∀ (e : String) (ps : List (String × Callback)), e ∈ eventTypeValues →
        nmEmit (subscribeSeq nmInitial ps) e = deliverSeq ps)
    ∧ (∀ ps : List (String × Callback), (∀ p ∈ ps, p.2.throws = false) →
        deliverSeq ps = (ps.map (fun p => p.2.id), none))
    ∧ (∀ (pre post : List (String × Callback)) (t : String × Callback),
        (∀ p ∈ pre, p.2.throws = false) → t.2.throws = true →
        deliverSeq (pre ++ t :: post)
          = (pre.map (fun p => p.2.id) ++ [t.2.id], some t.2.id)) := by
  refine ⟨?_, ?_, ?_⟩
  · intro e ps he
    rw [nmEmit_subscribeSeq ps nmInitial e he (by simp [nmInitial])]
    have h0 : nmEmit nmInitial e = ([], none) := rfl
    rw [h0, mergeRuns_nil_left]
  · intro ps h
    induction ps with
    | nil => rfl
    | cons p rest ih =>
      have hp := h p (by simp)
      have hrest : ∀ q ∈ rest, q.2.throws = false := by
        intro q hq
        exact h q (List.mem_cons_of_mem _ hq)
      simp [deliverSeq, hp, ih hrest]
  · intro pre post t hpre ht
    induction pre with
    | nil => simp [deliverSeq, ht]
    | cons p rest ih =>
      have hp := hpre p (by simp)
      have hrest : ∀ q ∈ rest, q.2.throws = false := by
        intro q hq
        exact hpre q (List.mem_cons_of_mem _ hq)
      simp [deliverSeq, hp, ih hrest]

/-- C5 counterexample: two subscribers to all events; the first callback
throws during notifyComponentUpdated, and the second — registered after it —
is never invoked, so the exception does prevent delivery to the remaining
subscriber. -/
theorem C5_throw_counterexample :
    nmNotifyComponentUpdated
      (nmSubscribe (nmSubscribe nmInitial "a" none ⟨1, true⟩).1 "b" none ⟨2, false⟩).1
      = ([1], some 1)
    ∧ 2 ∉ (nmNotifyComponentUpdated
        (nmSubscribe (nmSubscribe nmInitial "a" none ⟨1, true⟩).1 "b" none ⟨2, false⟩).1).1 :=
  ⟨by rfl, by decide⟩

/-- C5 witness: the amended delivery theorem applied to three concrete
subscribers of which the middle one throws: exactly the first two callbacks
run, in order, and the error propagates. -/
theorem C5_delivery_amended_witness :
    nmEmit (subscribeSeq nmInitial [("a", ⟨1, false⟩), ("b", ⟨2, true⟩), ("c", ⟨3, false⟩)])
      "component-updated"
      = deliverSeq [("a", ⟨1, false⟩), ("b", ⟨2, true⟩), ("c", ⟨3, false⟩)]
    ∧ deliverSeq [("a", ⟨1, false⟩), ("b", ⟨2, true⟩), ("c", ⟨3, false⟩)]
      = ([1, 2], some 2) := by
  refine ⟨C5_delivery_amended.1 "component-updated" _ (by decide), ?_⟩
  exact C5_delivery_amended.2.2 [("a", ⟨1, false⟩)] [("c", ⟨3, false⟩)] ("b", ⟨2, true⟩)
    (by decide) (by decide)

/-- C9: subscribe with null eventTypes and subscribe with an empty eventTypes
list both subscribe to every event type — amended: only null does; an empty
array is truthy in JavaScript, so `eventTypes || Object.values(EVENT_TYPES)`
keeps it and the subscription registers no listener and receives no event of
any type. -/
theorem C9_subscribe_amended :
    (∀ (n : Nat) (conn : String) (cb : Callback) (e : String), e ∈ eventTypeValues →
        cb.throws = false →
        nmEmit (nmSubscribe ⟨[], [], n⟩ conn none cb).1 e = ([cb.id], none))
    ∧ (∀ (n : Nat) (conn : String) (cb : Callback) (e : String),
        nmEmit (nmSubscribe ⟨[], [], n⟩ conn (some []) cb).1 e = ([], none)) := by
  constructor
  · intro n conn cb e he hnt
    rw [nmSubscribe_none_emit ⟨[], [], n⟩ conn cb e he (by simp)]
    have h0 : nmEmit ⟨[], [], n⟩ e = ([], none) := rfl
    rw [h0, mergeRuns_nil_left]
    simp [runListeners, hnt]
  · intro n conn cb e
    rfl

/-- C9 counterexample: a subscription created with an empty eventTypes array
receives nothing — notifyComponentUpdated reaches no callback — whereas the
same subscription created with null receives the event. -/
theorem C9_empty_counterexample :
    nmNotifyComponentUpdated (nmSubscribe nmInitial "c" (some []) ⟨1, false⟩).1 = ([], none)
    ∧ nmNotifyComponentUpdated (nmSubscribe nmInitial "c" none ⟨1, false⟩).1 = ([1], none) :=
  ⟨by rfl, by rfl⟩

/-- C9 witness: the amended subscription theorem applied to a concrete
callback and the cache-cleared event type. -/
theorem C9_subscribe_amended_witness :
    nmEmit (nmSubscribe ⟨[], [], 0⟩ "conn" none ⟨7, false⟩).1 "cache-cleared" = ([7], none)
    ∧ nmEmit (nmSubscribe ⟨[], [], 0⟩ "conn" (some []) ⟨7, false⟩).1 "cache-cleared"
        = ([], none) :=
  ⟨C9_subscribe_amended.1 0 "conn" ⟨7, false⟩ "cache-cleared" (by decide) (by decide),
   C9_subscribe_amended.2 0 "conn" ⟨7, false⟩ "cache-cleared"⟩

/-- C10: in database-backend mode, getComponentVersion fetches the
component's history with no options, so the adapter's default LIMIT 10
applies and only the 10 newest rows are searched; a version that exists in
component_history but is older than the 10 newest is reported as not found,
even though the manager's own getComponentHistory (whose default limit is
Infinity) still returns it. -/
theorem C10_version_limit (s : DbMgrState) (name fname : String) (row : DbHistRow)
    (hname : componentsOwn.lookup name = some fname)
    (hfail : s.db.failAll = false)
    (hmem : row ∈ s.db.history) (hcid : row.componentId = name)
    (hnottop : row ∉ (sortDescBy (fun r => r.createdAt)
        (s.db.history.filter (fun r => decide (r.componentId = name)))).take 10)
    (hids : ∀ r ∈ s.db.history, toString r.id = toString row.id → r = row)
    (hiso : ∀ r ∈ s.db.history, isoOf r.createdAt ≠ toString row.id) :
    dbmGetComponentVersion s name (toString row.id)
      = Except.error ("Version " ++ toString row.id ++ " not found for component " ++ name)
    ∧ ∃ hist, dbmGetComponentHistory s name none false = Except.ok (Sum.inr hist)
        ∧ row ∈ hist := by
  have hg : componentsGet name = some (JsProp.ownStr fname) := by
    simp [componentsGet, hname]
  have hfind : ((sortDescBy (fun r => r.createdAt)
      (s.db.history.filter (fun r => decide (r.componentId = name)))).take 10).find?
      (fun v => decide (toString v.id = toString row.id)
        || decide (isoOf v.createdAt = toString row.id)) = none := by
    rw [List.find?_eq_none]
    intro x hx
    have hx1 : x ∈ sortDescBy (fun r => r.createdAt)
        (s.db.history.filter (fun r => decide (r.componentId = name))) :=
      List.take_subset _ _ hx
    have hx2 : x ∈ s.db.history :=
      (List.mem_filter.mp ((mem_sortDescBy _ _ _).mp hx1)).1
    intro hcontra
    simp only [Bool.or_eq_true, decide_eq_true_eq] at hcontra
    rcases hcontra with h | h
    · exact hnottop (hids x hx2 h ▸ hx)
    · exact hiso x hx2 h
  constructor
  · simp [dbmGetComponentVersion, hg, dbGetComponentHistory, hfail, hfind]
  · refine ⟨sortDescBy (fun r => r.createdAt)
      (s.db.history.filter (fun r => decide (r.componentId = name))), ?_, ?_⟩
    · simp [dbmGetComponentHistory, hg, dbGetComponentHistory, hfail]
    · exact (mem_sortDescBy _ _ _).mpr (List.mem_filter.mpr ⟨hmem, by simp [hcid]⟩)

/-- Database-mode state whose activeContext component carries eleven history
rows (ids and creation times 1 through 11) — more rows than the adapter's
default history limit. -/
def elevenRowState : DbMgrState :=
  ⟨⟨[⟨"activeContext", "activeContext", "c11", 11⟩],
    [⟨1, "activeContext", "c1", 1⟩, ⟨2, "activeContext", "c2", 2⟩,
     ⟨3, "activeContext", "c3", 3⟩, ⟨4, "activeContext", "c4", 4⟩,
     ⟨5, "activeContext", "c5", 5⟩, ⟨6, "activeContext", "c6", 6⟩,
     ⟨7, "activeContext", "c7", 7⟩, ⟨8, "activeContext", "c8", 8⟩,
     ⟨9, "activeContext", "c9", 9⟩, ⟨10, "activeContext", "c10", 10⟩,
     ⟨11, "activeContext", "c11", 11⟩],
    12, false, false⟩, cacheOff, [], 12⟩

/-- C10 witness: with eleven history rows, asking for the oldest version (id
1) fails with VersionNotFound although the row is present and unlimited
history retrieval returns it. -/
theorem C10_version_limit_witness :
    dbmGetComponentVersion elevenRowState "activeContext"
      (toString (⟨1, "activeContext", "c1", 1⟩ : DbHistRow).id)
      = Except.error ("Version " ++ toString (⟨1, "activeContext", "c1", 1⟩ : DbHistRow).id
          ++ " not found for component " ++ "activeContext")
    ∧ ∃ hist, dbmGetComponentHistory elevenRowState "activeContext" none false
        = Except.ok (Sum.inr hist)
        ∧ (⟨1, "activeContext", "c1", 1⟩ : DbHistRow) ∈ hist :=
  C10_version_limit elevenRowState "activeContext" "activeContext.md"
    ⟨1, "activeContext", "c1", 1⟩ (by decide) (by decide) (by decide) (by decide)
    (by decide) (by decide) (by decide)

end MemoryBank
